import Mathlib

/-!
# MatrixCalculator: the JNI matrix bridge (`matrix_operations.cpp`)

A shallow embedding of `app/src/main/cpp/matrix_operations.cpp` and theorems about it.

Modelling decisions.

* Scalars. The C++ code works on `double`. Every definition below is generic in the scalar
  type `α`; only the operations the code applies to scalars are required (`Zero`, `Add`, `Sub`,
  `Mul`). Values are moved around unchanged, so equalities between scalars are equalities of the
  very same value.
* Java side. A `double[]` is a `List α`, a `double[][]` is a list of nullable rows.
  A pending Java exception is a field of the environment. JNI calls that may fail for lack of
  resources (`FindClass`, `NewObjectArray`, `NewDoubleArray`, `GetDoubleArrayElements`) consult a
  script of outcomes carried by the environment; the empty script means success.
* Eigen side. `Eigen::MatrixXd` is a dense buffer of `rows * cols` scalars in column-major
  order (Eigen's default), together with its two dimensions.
* C++ exceptions. `std::runtime_error` is the `error` case of `Except String`, the string being
  `what()`. Nothing in the modelled code throws anything that is not a `std::exception`, so the
  `catch (...)` handlers have no counterpart. Exhaustion of the native heap (`std::bad_alloc`
  from Eigen or `std::vector`) is not modelled. Logging has no effect on results and is left
  out.
* Integer widths. `jsize` is a 32 bit integer and Java arrays have fewer than `2^31` elements, so
  lengths never wrap; they are natural numbers here.
-/

namespace MatrixCalculator

/-! ## The Java environment -/

/-- A Java throwable as native code sees it: the class it was created from and its message. -/
structure JThrowable where
  cls : String
  msg : String
deriving DecidableEq

/-- The part of `JNIEnv` the bridge depends on: the pending exception, if any, and the outcomes
of the resource acquiring JNI calls still to come (`true` is success, an exhausted script is
success as well). -/
structure JNIEnv where
  pending : Option JThrowable
  outcomes : List Bool
deriving DecidableEq

/-- A Java `double[]`. -/
abbrev jdoubleArray (α : Type) := List α

/-- A Java `double[][]`: an array of references to rows, each of which may be `null`. -/
abbrev jobjectArray (α : Type) := List (Option (jdoubleArray α))

/-- The environment of a fresh call: nothing pending, every acquisition succeeds. -/
def JNIEnv.fresh : JNIEnv := ⟨none, []⟩

/-- Consume the outcome of the next resource acquiring call. -/
def JNIEnv.acquire (env : JNIEnv) : Bool × JNIEnv :=
  match env.outcomes with
  | [] => (true, env)
  | b :: rest => (b, { env with outcomes := rest })

/-- JNI `FindClass`: the class, or `null` with a `NoClassDefFoundError` pending. -/
def JNIEnv.FindClass (env : JNIEnv) (name : String) : Option String × JNIEnv :=
  match env.acquire with
  | (true, env1) => (some name, env1)
  | (false, env1) =>
    (none, { env1 with pending := some ⟨"java/lang/NoClassDefFoundError", name⟩ })

/-- JNI `ThrowNew`: makes a new throwable of the class pending. With a `null` class the call is
outside the JNI contract; the environment is then left as it is. -/
def JNIEnv.ThrowNew (env : JNIEnv) (cls : Option String) (msg : String) : JNIEnv :=
  match cls with
  | some c => { env with pending := some ⟨c, msg⟩ }
  | none => env

/-- The idiom `env->ThrowNew(env->FindClass(name), msg)`. -/
def JNIEnv.ThrowNewOf (env : JNIEnv) (name msg : String) : JNIEnv :=
  match env.FindClass name with
  | (cls, env1) => env1.ThrowNew cls msg

/-- JNI `GetDoubleArrayElements`: a native view of the elements, or `null` on failure. -/
def JNIEnv.GetDoubleArrayElements {α : Type} (env : JNIEnv) (javaRow : jdoubleArray α) :
    Option (List α) × JNIEnv :=
  match env.acquire with
  | (true, env1) => (some javaRow, env1)
  | (false, env1) => (none, env1)

/-- JNI `NewObjectArray(length, cls, nullptr)`: an array of `length` null references, or `null`
with an `OutOfMemoryError` pending. -/
def JNIEnv.NewObjectArray {α : Type} (env : JNIEnv) (length : Nat) :
    Option (jobjectArray α) × JNIEnv :=
  match env.acquire with
  | (true, env1) => (some (List.replicate length none), env1)
  | (false, env1) =>
    (none, { env1 with pending := some ⟨"java/lang/OutOfMemoryError", "NewObjectArray"⟩ })

/-- JNI `NewDoubleArray(length)`: a zero filled array, or `null` with an `OutOfMemoryError`
pending. -/
def JNIEnv.NewDoubleArray {α : Type} [Zero α] (env : JNIEnv) (length : Nat) :
    Option (jdoubleArray α) × JNIEnv :=
  match env.acquire with
  | (true, env1) => (some (List.replicate length 0), env1)
  | (false, env1) =>
    (none, { env1 with pending := some ⟨"java/lang/OutOfMemoryError", "NewDoubleArray"⟩ })

/-- JNI `SetDoubleArrayRegion(array, start, len, buf)`: copies `len` elements of `buf` over the
elements of `array` from `start` on. -/
def SetDoubleArrayRegion {α : Type} (array : jdoubleArray α) (start len : Nat) (buf : List α) :
    jdoubleArray α :=
  array.take start ++ buf.take len ++ array.drop (start + len)

/-! ## Eigen matrices -/

/-- The dense matrix `Eigen::MatrixXd`: dimensions and the coefficients in column-major
order, coefficient `(i, j)` at position `i + j * rows`. -/
structure MatrixXd (α : Type) where
  rows : Nat
  cols : Nat
  data : List α
deriving DecidableEq

namespace MatrixXd

variable {α : Type}

/-- The storage invariant of a dense matrix: exactly `rows * cols` coefficients. -/
def WF (m : MatrixXd α) : Prop := m.data.length = m.rows * m.cols

/-- The constructor `Eigen::MatrixXd(rows, cols)`. Eigen leaves the coefficients
uninitialised; they are zero here. -/
def create [Zero α] (rows cols : Nat) : MatrixXd α :=
  ⟨rows, cols, List.replicate (rows * cols) 0⟩

/-- The coefficient `m(i, j)`. -/
def coeff [Zero α] (m : MatrixXd α) (i j : Nat) : α :=
  m.data.getD (i + j * m.rows) 0

/-- Writes the vector `v` into row `i` of the buffer `d`, starting at column `j`. -/
def writeRow (rows i : Nat) : List α → Nat → List α → List α
  | [], _, d => d
  | x :: xs, j, d => writeRow rows i xs (j + 1) (d.set (i + j * rows) x)

/-- The assignment `m.row(i) = v`. -/
def setRow (m : MatrixXd α) (i : Nat) (v : List α) : MatrixXd α :=
  { m with data := writeRow m.rows i v 0 m.data }

/-- The row vector `m.row(i)`. -/
def row [Zero α] (m : MatrixXd α) (i : Nat) : List α :=
  (List.range m.cols).map (fun j => m.coeff i j)

/-- A matrix given by its coefficients. -/
def ofFn (rows cols : Nat) (f : Nat → Nat → α) : MatrixXd α :=
  ⟨rows, cols, (List.range (rows * cols)).map (fun p => f (p % rows) (p / rows))⟩

/-- The sum `a + b` (coefficient by coefficient; Eigen requires equal dimensions). -/
def add [Add α] (a b : MatrixXd α) : MatrixXd α :=
  ⟨a.rows, a.cols, List.zipWith (· + ·) a.data b.data⟩

/-- The difference `a - b` (coefficient by coefficient; Eigen requires equal dimensions). -/
def sub [Sub α] (a b : MatrixXd α) : MatrixXd α :=
  ⟨a.rows, a.cols, List.zipWith (· - ·) a.data b.data⟩

/-- The product `a * b`, an `a.rows` by `b.cols` matrix; Eigen requires `a.cols = b.rows`.
Coefficient `(i, j)` is the sum of the products `a(i, k) * b(k, j)`, taken here in the order of
`k`; an empty sum is zero. -/
def mul [Zero α] [Add α] [Mul α] (a b : MatrixXd α) : MatrixXd α :=
  ofFn a.rows b.cols
    (fun i j => ((List.range a.cols).map (fun k => a.coeff i k * b.coeff k j)).sum)

end MatrixXd

/-! ## The two conversions -/

variable {α : Type}

/-- The loop of `javaToEigenMatrix` from row `i` on; the first argument is the number of
columns, the second the rows still to be visited. -/
def javaToEigenMatrix.loop [Zero α] (cols : Nat) :
    jobjectArray α → Nat → MatrixXd α → JNIEnv → Except String (MatrixXd α) × JNIEnv
  | [], _, eigenMatrix, env => (.ok eigenMatrix, env)
  | none :: _, i, _, env =>
    (.ok (MatrixXd.create 0 0),
      env.ThrowNewOf "java/lang/NullPointerException"
        ("Row " ++ toString i ++ " of Java matrix is null"))
  | some javaRow :: rest, i, eigenMatrix, env =>
    if javaRow.length ≠ cols then
      (.error ("Inconsistent column count in matrix at row " ++ toString i), env)
    else
      match env.GetDoubleArrayElements javaRow with
      | (none, env1) =>
        (.ok (MatrixXd.create 0 0),
          env1.ThrowNewOf "java/lang/OutOfMemoryError" "Failed to get double array elements")
      | (some elements, env1) =>
        javaToEigenMatrix.loop cols rest (i + 1) (eigenMatrix.setRow i elements) env1

/-- The function `javaToEigenMatrix`: either throws a `std::runtime_error` or returns a matrix, and
in both cases leaves an environment behind. -/
def javaToEigenMatrix [Zero α] (env : JNIEnv) (javaMatrix : jobjectArray α) :
    Except String (MatrixXd α) × JNIEnv :=
  let rows := javaMatrix.length
  if rows = 0 then (.ok (MatrixXd.create 0 0), env)
  else
    match javaMatrix.head? with
    | none => (.ok (MatrixXd.create 0 0), env)
    | some none =>
      (.ok (MatrixXd.create 0 0),
        env.ThrowNewOf "java/lang/NullPointerException" "First row of Java matrix is null")
    | some (some firstRow) =>
      let cols := firstRow.length
      if cols = 0 then (.ok (MatrixXd.create rows 0), env)
      else javaToEigenMatrix.loop cols javaMatrix 0 (MatrixXd.create rows cols) env

/-- The loop of `eigenToJavaMatrix`: `n` rows are still to be produced, the next one is row
`i`. -/
def eigenToJavaMatrix.loop [Zero α] (eigenMatrix : MatrixXd α) (cols : Nat) :
    Nat → Nat → jobjectArray α → JNIEnv → jobjectArray α × JNIEnv
  | 0, _, javaMatrix, env => (javaMatrix, env)
  | n + 1, i, javaMatrix, env =>
    match (env.NewDoubleArray cols : Option (jdoubleArray α) × JNIEnv) with
    | (none, env1) => (javaMatrix, env1)
    | (some javaRow, env1) =>
      let eigenRow := eigenMatrix.row i
      let row_buffer := (List.range cols).map (fun j => eigenRow.getD j 0)
      let filled := SetDoubleArrayRegion javaRow 0 cols row_buffer
      eigenToJavaMatrix.loop eigenMatrix cols n (i + 1) (javaMatrix.set i (some filled)) env1

/-- The function `eigenToJavaMatrix`: the Java array, or `null`. -/
def eigenToJavaMatrix [Zero α] (env : JNIEnv) (eigenMatrix : MatrixXd α) :
    Option (jobjectArray α) × JNIEnv :=
  let rows := eigenMatrix.rows
  let cols := eigenMatrix.cols
  match env.FindClass "[D" with
  | (none, env1) => (none, env1)
  | (some _, env1) =>
    match (env1.NewObjectArray rows : Option (jobjectArray α) × JNIEnv) with
    | (none, env2) => (none, env2)
    | (some javaMatrix, env2) =>
      match eigenToJavaMatrix.loop eigenMatrix cols rows 0 javaMatrix env2 with
      | (filled, env3) => (some filled, env3)

/-! ## The three entry points -/

/-- The handler `catch (const std::exception& e)` shared by the entry points: a Java
`RuntimeException` carrying `e.what()` is thrown if its class is found, and `null` is
returned. -/
def catchStdException (env : JNIEnv) (what : String) : Option (jobjectArray α) × JNIEnv :=
  match env.FindClass "java/lang/RuntimeException" with
  | (some exceptionClass, env1) => (none, env1.ThrowNew (some exceptionClass) what)
  | (none, env1) => (none, env1)

/-- The message of the dimension check of addition and subtraction. -/
def dimensionsMustMatch (operation : String) (a b : MatrixXd α) : String :=
  "Matrix dimensions must match for " ++ operation ++ " (" ++
    toString a.rows ++ "x" ++ toString a.cols ++ " vs " ++
    toString b.rows ++ "x" ++ toString b.cols ++ ")"

/-- The message of the dimension check of multiplication. -/
def dimensionsIncompatible (a b : MatrixXd α) : String :=
  "Matrix dimensions incompatible for multiplication (A.cols " ++
    toString a.cols ++ " != B.rows " ++ toString b.rows ++ ")"

/-- The JNI entry point `addMatrices`. -/
def Java_com_example_matrixcalculator_MatrixCalculatorBridge_addMatrices [Zero α] [Add α]
    (env : JNIEnv) (matrixA matrixB : jobjectArray α) : Option (jobjectArray α) × JNIEnv :=
  match javaToEigenMatrix env matrixA with
  | (.error e, env1) => catchStdException env1 e
  | (.ok a, env1) =>
    match javaToEigenMatrix env1 matrixB with
    | (.error e, env2) => catchStdException env2 e
    | (.ok b, env2) =>
      if a.rows ≠ b.rows ∨ a.cols ≠ b.cols then
        catchStdException env2 (dimensionsMustMatch "addition" a b)
      else
        eigenToJavaMatrix env2 (a.add b)

/-- The JNI entry point `subtractMatrices`. -/
def Java_com_example_matrixcalculator_MatrixCalculatorBridge_subtractMatrices [Zero α] [Sub α]
    (env : JNIEnv) (matrixA matrixB : jobjectArray α) : Option (jobjectArray α) × JNIEnv :=
  match javaToEigenMatrix env matrixA with
  | (.error e, env1) => catchStdException env1 e
  | (.ok a, env1) =>
    match javaToEigenMatrix env1 matrixB with
    | (.error e, env2) => catchStdException env2 e
    | (.ok b, env2) =>
      if a.rows ≠ b.rows ∨ a.cols ≠ b.cols then
        catchStdException env2 (dimensionsMustMatch "subtraction" a b)
      else
        eigenToJavaMatrix env2 (a.sub b)

/-- The JNI entry point `multiplyMatrices`. -/
def Java_com_example_matrixcalculator_MatrixCalculatorBridge_multiplyMatrices
    [Zero α] [Add α] [Mul α]
    (env : JNIEnv) (matrixA matrixB : jobjectArray α) : Option (jobjectArray α) × JNIEnv :=
  match javaToEigenMatrix env matrixA with
  | (.error e, env1) => catchStdException env1 e
  | (.ok a, env1) =>
    match javaToEigenMatrix env1 matrixB with
    | (.error e, env2) => catchStdException env2 e
    | (.ok b, env2) =>
      if a.cols ≠ b.rows then
        catchStdException env2 (dimensionsIncompatible a b)
      else
        eigenToJavaMatrix env2 (a.mul b)

/-! ## Vocabulary of the statements -/

/-- No failure is scheduled: every resource acquiring JNI call of the run succeeds. -/
def JNIEnv.Reliable (env : JNIEnv) : Prop := ∀ b ∈ env.outcomes, b = true

instance (env : JNIEnv) : Decidable env.Reliable := by
  unfold JNIEnv.Reliable; infer_instance

/-- Element `j` of row `i` of a nested sequence, when there is one. -/
def entry (M : List (List α)) (i j : Nat) : Option α :=
  (M[i]?).bind (fun r => r[j]?)

/-- The external matrix whose rows are all present. -/
def present (M : List (List α)) : jobjectArray α := M.map some

/-- The rows of a matrix as nested lists, read through `coeff`. -/
def MatrixXd.toLists [Zero α] (m : MatrixXd α) : List (List α) :=
  (List.range m.rows).map (fun i => (List.range m.cols).map (fun j => m.coeff i j))

/-- The string `part` occurs in the string `whole` as a contiguous piece. -/
def occursIn (part whole : String) : Prop := part.data <:+: whole.data

instance (part whole : String) : Decidable (occursIn part whole) := by
  unfold occursIn; infer_instance

/-! ## A concrete scalar type: the integral doubles

The statements about values hold for every scalar type. Where the arithmetic of `double` itself
matters, the doubles whose value is an integer are used: on them IEEE 754 binary64 addition,
subtraction and multiplication (default rounding mode) return the exact integer result rounded
to 53 significant bits, to nearest, ties to even. The model is exact as long as magnitudes stay
below `2^1024`, where binary64 would overflow; the sign of zero is not represented. -/

/-- The number of binary digits of `n`; the first argument bounds the number of steps. -/
def bitLength : Nat → Nat → Nat
  | 0, _ => 0
  | fuel + 1, n => if n = 0 then 0 else bitLength fuel (n / 2) + 1

/-- Rounding of a natural number to 53 significant bits, to nearest, ties to even. -/
def roundToSignificand (n : Nat) : Nat :=
  let excess := bitLength n n - 53
  if excess = 0 then n
  else
    let q := n / 2 ^ excess
    let r := n % 2 ^ excess
    let half := 2 ^ (excess - 1)
    if r > half ∨ (r = half ∧ q % 2 = 1) then (q + 1) * 2 ^ excess else q * 2 ^ excess

/-- Rounding of an integer to the nearest binary64 value (symmetric in the sign). -/
def roundToDouble (z : Int) : Int :=
  if z < 0 then - (roundToSignificand z.natAbs : Int) else (roundToSignificand z.natAbs : Int)

/-- A `jdouble` whose value is the integer `val`; `val` is meant to be a fixed point of
`roundToDouble`, which the results of the operations below are. -/
structure IntegralDouble where
  val : Int
deriving DecidableEq

instance : Zero IntegralDouble := ⟨⟨0⟩⟩

instance : Add IntegralDouble := ⟨fun x y => ⟨roundToDouble (x.val + y.val)⟩⟩

instance : Sub IntegralDouble := ⟨fun x y => ⟨roundToDouble (x.val - y.val)⟩⟩

instance : Mul IntegralDouble := ⟨fun x y => ⟨roundToDouble (x.val * y.val)⟩⟩

/-! ## The environment when nothing fails -/

theorem acquire_of_reliable {env : JNIEnv} (h : env.Reliable) :
    ∃ env1, env.acquire = (true, env1) ∧ env1.Reliable ∧ env1.pending = env.pending := by
  obtain ⟨p, o⟩ := env
  cases o with
  | nil => exact ⟨_, rfl, h, rfl⟩
  | cons b rest =>
    have hb : b = true := h b (List.mem_cons_self _ _)
    subst hb
    exact ⟨⟨p, rest⟩, rfl, fun c hc => h c (List.mem_cons_of_mem _ hc), rfl⟩

theorem findClass_of_reliable {env : JNIEnv} (h : env.Reliable) (name : String) :
    ∃ env1, env.FindClass name = (some name, env1) ∧ env1.Reliable ∧
      env1.pending = env.pending := by
  obtain ⟨env1, h1, h2, h3⟩ := acquire_of_reliable h
  exact ⟨env1, by simp [JNIEnv.FindClass, h1], h2, h3⟩

theorem getElements_of_reliable {env : JNIEnv} (h : env.Reliable) (javaRow : jdoubleArray α) :
    ∃ env1, env.GetDoubleArrayElements javaRow = (some javaRow, env1) ∧ env1.Reliable ∧
      env1.pending = env.pending := by
  obtain ⟨env1, h1, h2, h3⟩ := acquire_of_reliable h
  exact ⟨env1, by simp [JNIEnv.GetDoubleArrayElements, h1], h2, h3⟩

theorem newObjectArray_of_reliable (β : Type) {env : JNIEnv} (h : env.Reliable) (n : Nat) :
    ∃ env1, (env.NewObjectArray n : Option (jobjectArray β) × JNIEnv)
        = (some (List.replicate n none), env1) ∧ env1.Reliable ∧
      env1.pending = env.pending := by
  obtain ⟨env1, h1, h2, h3⟩ := acquire_of_reliable h
  exact ⟨env1, by simp [JNIEnv.NewObjectArray, h1], h2, h3⟩

theorem newDoubleArray_of_reliable (β : Type) [Zero β] {env : JNIEnv} (h : env.Reliable)
    (n : Nat) :
    ∃ env1, (env.NewDoubleArray n : Option (jdoubleArray β) × JNIEnv)
        = (some (List.replicate n 0), env1) ∧ env1.Reliable ∧
      env1.pending = env.pending := by
  obtain ⟨env1, h1, h2, h3⟩ := acquire_of_reliable h
  exact ⟨env1, by simp [JNIEnv.NewDoubleArray, h1], h2, h3⟩

theorem catchStdException_of_reliable (β : Type) {env : JNIEnv} (h : env.Reliable)
    (what : String) :
    ∃ env1, (catchStdException env what : Option (jobjectArray β) × JNIEnv) = (none, env1) ∧
      env1.Reliable ∧ env1.pending = some ⟨"java/lang/RuntimeException", what⟩ := by
  obtain ⟨env1, h1, h2, _⟩ := findClass_of_reliable h "java/lang/RuntimeException"
  exact ⟨env1.ThrowNew (some "java/lang/RuntimeException") what,
    by simp [catchStdException, h1], h2, rfl⟩

/-! ## Column-major addressing -/

theorem index_lt {R C i j : Nat} (hi : i < R) (hj : j < C) : i + j * R < R * C := by
  calc i + j * R < R + j * R := by omega
    _ = R * (j + 1) := by ring
    _ ≤ R * C := Nat.mul_le_mul_left R hj

theorem index_inj {R i j i2 j2 : Nat} (hi : i < R) (hi2 : i2 < R) :
    i + j * R = i2 + j2 * R ↔ i = i2 ∧ j = j2 := by
  constructor
  · intro h
    have h1 : (i + j * R) % R = (i2 + j2 * R) % R := by rw [h]
    have h2 : (i + j * R) / R = (i2 + j2 * R) / R := by rw [h]
    have hR : 0 < R := by omega
    rw [Nat.add_mul_mod_self_right, Nat.add_mul_mod_self_right, Nat.mod_eq_of_lt hi,
      Nat.mod_eq_of_lt hi2] at h1
    rw [Nat.add_mul_div_right _ _ hR, Nat.add_mul_div_right _ _ hR, Nat.div_eq_of_lt hi,
      Nat.div_eq_of_lt hi2] at h2
    omega
  · rintro ⟨rfl, rfl⟩; rfl

theorem length_writeRow (R i : Nat) (v : List α) (j : Nat) (d : List α) :
    (MatrixXd.writeRow R i v j d).length = d.length := by
  induction v generalizing j d with
  | nil => rfl
  | cons x xs ih => simp [MatrixXd.writeRow, ih]

theorem getD_set [Zero α] (d : List α) (n p : Nat) (x : α) :
    (d.set n x).getD p 0 = if p = n ∧ n < d.length then x else d.getD p 0 := by
  simp only [List.getD_eq_getElem?_getD, List.getElem?_set]
  by_cases h : n = p
  · subst h
    by_cases h2 : n < d.length
    · simp [h2]
    · simp [h2, List.getElem?_eq_none (le_of_not_lt h2)]
  · have h3 : ¬ p = n := fun e => h e.symm
    simp [h, h3]

theorem getD_writeRow [Zero α] {R C i : Nat} (hi : i < R) (v : List α) (j0 : Nat) (d : List α)
    (hd : d.length = R * C) (hv : j0 + v.length ≤ C) {i2 : Nat} (j2 : Nat) (hi2 : i2 < R) :
    (MatrixXd.writeRow R i v j0 d).getD (i2 + j2 * R) 0 =
      if i2 = i ∧ j0 ≤ j2 ∧ j2 < j0 + v.length then v.getD (j2 - j0) 0
      else d.getD (i2 + j2 * R) 0 := by
  induction v generalizing j0 d with
  | nil =>
    have h0 : ¬ (i2 = i ∧ j0 ≤ j2 ∧ j2 < j0 + ([] : List α).length) := by
      simp only [List.length_nil]; omega
    rw [if_neg h0]; rfl
  | cons x xs ih =>
    simp only [MatrixXd.writeRow, List.length_cons] at hv ⊢
    rw [ih (j0 + 1) (d.set (i + j0 * R) x) (by simpa using hd) (by omega), getD_set]
    have hlt : i + j0 * R < d.length := by rw [hd]; exact index_lt hi (by omega)
    by_cases h1 : i2 = i ∧ j0 + 1 ≤ j2 ∧ j2 < j0 + 1 + xs.length
    · obtain ⟨h1a, h1b, h1c⟩ := h1
      have e : j2 - j0 = (j2 - (j0 + 1)) + 1 := by omega
      rw [if_pos ⟨h1a, h1b, h1c⟩, if_pos ⟨h1a, by omega, by omega⟩, e, List.getD_cons_succ]
    · rw [if_neg h1]
      by_cases h2 : i2 = i ∧ j2 = j0
      · obtain ⟨rfl, rfl⟩ := h2
        rw [if_pos ⟨rfl, hlt⟩, if_pos ⟨rfl, le_refl _, by omega⟩]
        simp
      · have hne : ¬ (i2 + j2 * R = i + j0 * R) := by
          rw [index_inj hi2 hi]; exact h2
        rw [if_neg (fun h => hne h.1)]
        have h3 : ¬ (i2 = i ∧ j0 ≤ j2 ∧ j2 < j0 + (xs.length + 1)) := by
          rintro ⟨a, b, c⟩
          by_cases e : j2 = j0
          · exact h2 ⟨a, e⟩
          · exact h1 ⟨a, by omega, by omega⟩
        rw [if_neg h3]

/-! ## Decoding a rectangular matrix -/

theorem coeff_setRow [Zero α] {R C : Nat} (m : MatrixXd α) (hrows : m.rows = R)
    (hwf : m.data.length = R * C) {i : Nat} (hi : i < R) (v : List α) (hv : v.length ≤ C)
    {i2 j2 : Nat} (hi2 : i2 < R) :
    (m.setRow i v).coeff i2 j2 =
      if i2 = i ∧ j2 < v.length then v.getD j2 0 else m.coeff i2 j2 := by
  have h := getD_writeRow hi v 0 m.data hwf (by omega) j2 hi2
  simp only [MatrixXd.coeff, MatrixXd.setRow, hrows]
  rw [h]
  simp

theorem decode_loop [Zero α] (R C : Nat) (rest : List (List α)) (i : Nat) (m : MatrixXd α)
    (env : JNIEnv) (hrest : ∀ r ∈ rest, r.length = C) (hi : i + rest.length = R)
    (hrows : m.rows = R) (hcols : m.cols = C) (hwf : m.data.length = R * C)
    (henv : env.Reliable) :
    ∃ m2 env2, javaToEigenMatrix.loop C (present rest) i m env = (.ok m2, env2) ∧
      env2.Reliable ∧ env2.pending = env.pending ∧
      m2.rows = R ∧ m2.cols = C ∧ m2.data.length = R * C ∧
      ∀ i2 j2, i2 < R → j2 < C →
        m2.coeff i2 j2 =
          if i ≤ i2 then (rest.getD (i2 - i) []).getD j2 0 else m.coeff i2 j2 := by
  induction rest generalizing i m env with
  | nil =>
    refine ⟨m, env, rfl, henv, rfl, hrows, hcols, hwf, ?_⟩
    intro i2 j2 h2 _
    simp only [List.length_nil, Nat.add_zero] at hi
    rw [if_neg (by omega)]
  | cons r rs ih =>
    have hr : r.length = C := hrest r (List.mem_cons_self _ _)
    have hrs : ∀ x ∈ rs, x.length = C := fun x hx => hrest x (List.mem_cons_of_mem _ hx)
    simp only [List.length_cons] at hi
    obtain ⟨env1, hg, hrel1, hpend1⟩ := getElements_of_reliable henv r
    have hwf2 : (m.setRow i r).data.length = R * C := by
      simp only [MatrixXd.setRow, length_writeRow]; exact hwf
    obtain ⟨m2, env2, hloop, hrel2, hpend2, h2rows, h2cols, h2wf, hco⟩ :=
      ih (i + 1) (m.setRow i r) env1 hrs (by omega) hrows hcols hwf2 hrel1
    refine ⟨m2, env2, ?_, hrel2, hpend2.trans hpend1, h2rows, h2cols, h2wf, ?_⟩
    · simp only [present, List.map_cons, javaToEigenMatrix.loop, hr, ne_eq, not_true_eq_false,
        if_false, hg]
      exact hloop
    · intro i2 j2 h2 hj2
      rw [hco i2 j2 h2 hj2]
      by_cases h3 : i + 1 ≤ i2
      · rw [if_pos h3, if_pos (by omega)]
        have e : i2 - i = (i2 - (i + 1)) + 1 := by omega
        rw [e, List.getD_cons_succ]
      · rw [if_neg h3, coeff_setRow m hrows hwf (by omega) r (by omega) h2]
        by_cases h4 : i2 = i
        · subst h4
          rw [if_pos ⟨rfl, by omega⟩, if_pos (le_refl _)]
          simp
        · rw [if_neg (fun h => h4 h.1), if_neg (by omega)]

theorem toLists_eq [Zero α] (m : MatrixXd α) (M : List (List α)) (hR : m.rows = M.length)
    (hC : ∀ r ∈ M, r.length = m.cols)
    (h : ∀ i j, i < m.rows → j < m.cols → m.coeff i j = (M.getD i []).getD j 0) :
    m.toLists = M := by
  apply List.ext_getElem
  · simp [MatrixXd.toLists, hR]
  · intro n h1 h2
    have hn : n < m.rows := by omega
    have hlen : (M[n]).length = m.cols := hC _ (List.getElem_mem h2)
    simp only [MatrixXd.toLists, List.getElem_map, List.getElem_range]
    apply List.ext_getElem
    · simp [hlen]
    · intro k k1 k2
      have hk : k < m.cols := by omega
      simp only [List.getElem_map, List.getElem_range]
      rw [h n k hn hk, List.getD_eq_getElem _ _ h2, List.getD_eq_getElem _ _ k2]

theorem decode_rect [Zero α] (env : JNIEnv) (M : List (List α)) (C : Nat)
    (hM : ∀ r ∈ M, r.length = C) (henv : env.Reliable) :
    ∃ m env1, javaToEigenMatrix env (present M) = (.ok m, env1) ∧
      env1.Reliable ∧ env1.pending = env.pending ∧
      m.rows = M.length ∧ m.cols = (if M.length = 0 then 0 else C) ∧ m.WF ∧ m.toLists = M := by
  cases M with
  | nil =>
    refine ⟨MatrixXd.create 0 0, env, rfl, henv, rfl, rfl, rfl, ?_, rfl⟩
    simp [MatrixXd.WF, MatrixXd.create]
  | cons r rs =>
    have hr : r.length = C := hM r (List.mem_cons_self _ _)
    by_cases hC : C = 0
    · refine ⟨MatrixXd.create (rs.length + 1) 0, env, ?_, henv, rfl, rfl, ?_, ?_, ?_⟩
      · simp [javaToEigenMatrix, present, hr, hC]
      · simp [MatrixXd.create, hC]
      · simp [MatrixXd.WF, MatrixXd.create]
      · apply toLists_eq
        · rfl
        · intro x hx; rw [hM x hx, hC]; rfl
        · intro i j _ hj; simp [MatrixXd.create] at hj
    · have hwf0 : (MatrixXd.create (rs.length + 1) C : MatrixXd α).data.length
          = (rs.length + 1) * C := by simp [MatrixXd.create]
      obtain ⟨m, env1, hloop, hrel, hpend, hrows, hcols, hwf, hco⟩ :=
        decode_loop (rs.length + 1) C (r :: rs) 0 (MatrixXd.create (rs.length + 1) C) env hM
          (by simp) rfl rfl hwf0 henv
      refine ⟨m, env1, ?_, hrel, hpend, hrows, ?_, ?_, ?_⟩
      · simp only [javaToEigenMatrix, present, List.map_cons, List.length_cons,
          List.length_map, List.head?_cons, hr, hC, if_false, Nat.add_one_ne_zero]
        exact hloop
      · simp [hcols]
      · simp [MatrixXd.WF, hwf, hrows, hcols]
      · apply toLists_eq
        · simp [hrows]
        · intro x hx; rw [hM x hx, hcols]
        · intro i j h1 h2
          rw [hco i j (by omega) (by omega), if_pos (Nat.zero_le _)]
          simp

/-! ## Encoding -/

theorem rowBuffer_eq [Zero α] (m : MatrixXd α) (i : Nat) :
    SetDoubleArrayRegion (List.replicate m.cols (0 : α)) 0 m.cols
        ((List.range m.cols).map (fun j => (m.row i).getD j 0))
      = (List.range m.cols).map (fun j => m.coeff i j) := by
  have h1 : (List.range m.cols).map (fun j => (m.row i).getD j 0)
      = (List.range m.cols).map (fun j => m.coeff i j) := by
    apply List.map_congr_left
    intro j hj
    have hj2 : j < m.cols := List.mem_range.mp hj
    simp only [MatrixXd.row]
    rw [List.getD_eq_getElem _ _ (by simpa using hj2)]
    simp
  rw [h1]
  simp [SetDoubleArrayRegion]

theorem encode_loop [Zero α] (m : MatrixXd α) (n i : Nat) (arr : jobjectArray α) (env : JNIEnv)
    (henv : env.Reliable) (hlen : i + n ≤ arr.length) :
    ∃ arr2 env1, eigenToJavaMatrix.loop m m.cols n i arr env = (arr2, env1) ∧
      env1.Reliable ∧ env1.pending = env.pending ∧ arr2.length = arr.length ∧
      ∀ k, arr2[k]? =
        if i ≤ k ∧ k < i + n then some (some ((List.range m.cols).map (fun j => m.coeff k j)))
        else arr[k]? := by
  induction n generalizing i arr env with
  | zero =>
    refine ⟨arr, env, rfl, henv, rfl, rfl, ?_⟩
    intro k
    rw [if_neg (by omega)]
  | succ n ih =>
    obtain ⟨env1, hnew, hrel1, hpend1⟩ :=
      newDoubleArray_of_reliable α henv m.cols
    obtain ⟨arr2, env2, hloop, hrel2, hpend2, hlen2, hget⟩ :=
      ih (i + 1) (arr.set i (some ((List.range m.cols).map (fun j => m.coeff i j)))) env1 hrel1
        (by simp; omega)
    refine ⟨arr2, env2, ?_, hrel2, hpend2.trans hpend1, by simpa using hlen2, ?_⟩
    · simp only [eigenToJavaMatrix.loop, hnew, rowBuffer_eq]
      exact hloop
    · intro k
      rw [hget k]
      by_cases h1 : i + 1 ≤ k ∧ k < i + 1 + n
      · rw [if_pos h1, if_pos (by omega)]
      · rw [if_neg h1, List.getElem?_set]
        by_cases h2 : i = k
        · subst h2
          rw [if_pos rfl, if_pos (by omega), if_pos (by omega)]
        · rw [if_neg h2, if_neg (by omega)]

theorem encode_ok [Zero α] (env : JNIEnv) (m : MatrixXd α) (henv : env.Reliable) :
    ∃ env1, eigenToJavaMatrix env m = (some (present m.toLists), env1) ∧
      env1.Reliable ∧ env1.pending = env.pending := by
  obtain ⟨env1, hfc, hrel1, hpend1⟩ := findClass_of_reliable henv "[D"
  obtain ⟨env2, hnew, hrel2, hpend2⟩ := newObjectArray_of_reliable α hrel1 m.rows
  obtain ⟨arr, env3, hloop, hrel3, hpend3, hlen, hget⟩ :=
    encode_loop m m.rows 0 (List.replicate m.rows none) env2 hrel2 (by simp)
  refine ⟨env3, ?_, hrel3, hpend3.trans (hpend2.trans hpend1)⟩
  have harr : arr = present m.toLists := by
    apply List.ext_getElem?
    intro k
    rw [hget k]
    by_cases hk : k < m.rows
    · rw [if_pos (by omega)]
      simp [present, MatrixXd.toLists, List.getElem?_range hk, hk]
    · rw [if_neg (by omega)]
      simp [present, MatrixXd.toLists, List.getElem?_eq_none, not_lt.mp hk]
  simp only [eigenToJavaMatrix, hfc, hnew, hloop, harr]

/-! ## Coefficients of sums, differences and products -/

theorem length_toLists [Zero α] (m : MatrixXd α) : m.toLists.length = m.rows := by
  simp [MatrixXd.toLists]

theorem length_of_mem_toLists [Zero α] (m : MatrixXd α) {r : List α} (hr : r ∈ m.toLists) :
    r.length = m.cols := by
  simp only [MatrixXd.toLists, List.mem_map] at hr
  obtain ⟨i, _, rfl⟩ := hr
  simp

theorem getElem?_toLists [Zero α] (m : MatrixXd α) {i : Nat} (hi : i < m.rows) :
    m.toLists[i]? = some ((List.range m.cols).map (fun j => m.coeff i j)) := by
  simp [MatrixXd.toLists, List.getElem?_range hi]

theorem entry_toLists [Zero α] (m : MatrixXd α) {i j : Nat} (hi : i < m.rows) (hj : j < m.cols) :
    entry m.toLists i j = some (m.coeff i j) := by
  simp [entry, getElem?_toLists m hi, List.getElem?_range hj]

theorem coeff_zipWith [Zero α] (f : α → α → α) (a b : MatrixXd α) {R C : Nat}
    (ha : a.data.length = R * C) (hb : b.data.length = R * C) (hrows : a.rows = R)
    (hrows2 : b.rows = R) {i j : Nat} (hi : i < R) (hj : j < C) :
    (⟨a.rows, a.cols, List.zipWith f a.data b.data⟩ : MatrixXd α).coeff i j
      = f (a.coeff i j) (b.coeff i j) := by
  have hlt : i + j * R < R * C := index_lt hi hj
  simp only [MatrixXd.coeff, hrows, hrows2]
  rw [List.getD_eq_getElem _ _ (by simp [ha, hb, hlt]), List.getD_eq_getElem _ _ (by omega),
    List.getD_eq_getElem _ _ (by omega)]
  simp

theorem coeff_ofFn [Zero α] (R C : Nat) (f : Nat → Nat → α) {i j : Nat} (hi : i < R)
    (hj : j < C) : (MatrixXd.ofFn R C f).coeff i j = f i j := by
  have hlt : i + j * R < R * C := index_lt hi hj
  have hR : 0 < R := by omega
  simp only [MatrixXd.coeff, MatrixXd.ofFn]
  rw [List.getD_eq_getElem _ _ (by simpa using hlt)]
  simp only [List.getElem_map, List.getElem_range]
  rw [Nat.add_mul_mod_self_right, Nat.mod_eq_of_lt hi, Nat.add_mul_div_right _ _ hR,
    Nat.div_eq_of_lt hi, Nat.zero_add]

theorem coeff_mul [Zero α] [Add α] [Mul α] (a b : MatrixXd α) {i j : Nat} (hi : i < a.rows)
    (hj : j < b.cols) :
    (a.mul b).coeff i j
      = ((List.range a.cols).map (fun k => a.coeff i k * b.coeff k j)).sum := by
  simp only [MatrixXd.mul]
  rw [coeff_ofFn _ _ _ hi hj]

/-! ## Two operands of the same shape -/

theorem decode_pair [Zero α] (env : JNIEnv) (A B : List (List α)) (R C : Nat)
    (henv : env.Reliable) (hA : A.length = R) (hB : B.length = R)
    (hAC : ∀ r ∈ A, r.length = C) (hBC : ∀ r ∈ B, r.length = C) :
    ∃ a b env1 env2, javaToEigenMatrix env (present A) = (.ok a, env1) ∧
      javaToEigenMatrix env1 (present B) = (.ok b, env2) ∧
      env2.Reliable ∧ env2.pending = env.pending ∧
      a.rows = R ∧ b.rows = R ∧ a.cols = b.cols ∧ (0 < R → a.cols = C) ∧
      a.data.length = R * a.cols ∧ b.data.length = R * a.cols ∧
      a.toLists = A ∧ b.toLists = B := by
  obtain ⟨a, env1, hda, hrel1, hpend1, harows, hacols, hawf, hal⟩ :=
    decode_rect env A C hAC henv
  obtain ⟨b, env2, hdb, hrel2, hpend2, hbrows, hbcols, hbwf, hbl⟩ :=
    decode_rect env1 B C hBC hrel1
  have hcols : a.cols = b.cols := by rw [hacols, hbcols, hA, hB]
  refine ⟨a, b, env1, env2, hda, hdb, hrel2, hpend2.trans hpend1, harows.trans hA,
    hbrows.trans hB, hcols, ?_, ?_, ?_, hal, hbl⟩
  · intro hR
    rw [hacols, hA, if_neg (by omega)]
  · rw [← hA, ← harows]; exact hawf
  · rw [hcols, ← hB, ← hbrows]; exact hbwf

/-! ## Decoding keeps a reliable environment reliable -/

theorem reliable_throwNewOf {env : JNIEnv} (h : env.Reliable) (name msg : String) :
    (env.ThrowNewOf name msg).Reliable := by
  obtain ⟨env1, h1, h2, _⟩ := findClass_of_reliable h name
  simp only [JNIEnv.ThrowNewOf, h1, JNIEnv.ThrowNew]
  exact h2

theorem decode_loop_reliable [Zero α] (cols : Nat) (rows : jobjectArray α) (i : Nat)
    (m : MatrixXd α) (env : JNIEnv) (h : env.Reliable) :
    (javaToEigenMatrix.loop cols rows i m env).2.Reliable := by
  induction rows generalizing i m env with
  | nil => exact h
  | cons r rs ih =>
    cases r with
    | none => exact reliable_throwNewOf h _ _
    | some javaRow =>
      simp only [javaToEigenMatrix.loop]
      split
      · exact h
      · obtain ⟨env1, h1, h2, _⟩ := getElements_of_reliable h javaRow
        simp only [h1]
        exact ih _ _ _ h2

theorem decode_reliable [Zero α] (env : JNIEnv) (A : jobjectArray α) (h : env.Reliable) :
    (javaToEigenMatrix env A).2.Reliable := by
  unfold javaToEigenMatrix
  simp only
  split
  · exact h
  · split
    · exact h
    · exact reliable_throwNewOf h _ _
    · split
      · exact h
      · exact decode_loop_reliable _ _ _ _ _ h

/-! ## The first row of the wrong length -/

theorem decode_loop_error [Zero α] (C : Nat) (rest : List (List α)) (k i0 : Nat)
    (m : MatrixXd α) (env : JNIEnv) (bad : List α) (henv : env.Reliable)
    (hbad : rest[k]? = some bad) (hlen : bad.length ≠ C)
    (hmin : ∀ n r, n < k → rest[n]? = some r → r.length = C) :
    ∃ env1, javaToEigenMatrix.loop C (present rest) i0 m env
        = (.error ("Inconsistent column count in matrix at row " ++ toString (i0 + k)), env1) ∧
      env1.pending = env.pending := by
  induction rest generalizing k i0 m env with
  | nil => simp at hbad
  | cons r rs ih =>
    cases k with
    | zero =>
      simp only [List.getElem?_cons_zero, Option.some.injEq] at hbad
      subst hbad
      refine ⟨env, ?_, rfl⟩
      simp [present, javaToEigenMatrix.loop, hlen]
    | succ k =>
      have hr : r.length = C := hmin 0 r (Nat.succ_pos k) (by simp)
      obtain ⟨env1, hg, hrel1, hpend1⟩ := getElements_of_reliable henv r
      obtain ⟨env2, hloop, hpend2⟩ :=
        ih k (i0 + 1) (m.setRow i0 r) env1 hrel1 (by simpa using hbad)
          (fun n x hn hx => hmin (n + 1) x (by omega) (by simpa using hx))
      refine ⟨env2, ?_, hpend2.trans hpend1⟩
      have e : i0 + (k + 1) = i0 + 1 + k := by omega
      simp only [present, List.map_cons, javaToEigenMatrix.loop, hr, ne_eq, not_true_eq_false,
        if_false, hg, e]
      exact hloop

/-! ## What decoding depends on -/

theorem pending_throwNewOf {env : JNIEnv} (h : env.Reliable) (name msg : String) :
    (env.ThrowNewOf name msg).pending = some ⟨name, msg⟩ := by
  obtain ⟨env1, h1, _, _⟩ := findClass_of_reliable h name
  simp [JNIEnv.ThrowNewOf, h1, JNIEnv.ThrowNew]

theorem decode_loop_char [Zero α] (cols : Nat) (rows : jobjectArray α) (i : Nat)
    (m : MatrixXd α) :
    ∃ (r : Except String (MatrixXd α)) (t : Option JThrowable), ∀ env : JNIEnv, env.Reliable →
      (javaToEigenMatrix.loop cols rows i m env).1 = r ∧
      (javaToEigenMatrix.loop cols rows i m env).2.pending = t.or env.pending := by
  induction rows generalizing i m with
  | nil => exact ⟨.ok m, none, fun env _ => ⟨rfl, by simp [javaToEigenMatrix.loop]⟩⟩
  | cons r rs ih =>
    cases r with
    | none =>
      refine ⟨.ok (MatrixXd.create 0 0), some ⟨"java/lang/NullPointerException",
        "Row " ++ toString i ++ " of Java matrix is null"⟩, fun env henv => ⟨rfl, ?_⟩⟩
      simp only [javaToEigenMatrix.loop, Option.or]
      exact pending_throwNewOf henv _ _
    | some javaRow =>
      by_cases hlen : javaRow.length ≠ cols
      · refine ⟨.error ("Inconsistent column count in matrix at row " ++ toString i), none,
          fun env _ => ?_⟩
        simp [javaToEigenMatrix.loop, hlen]
      · obtain ⟨r, t, h⟩ := ih (i + 1) (m.setRow i javaRow)
        refine ⟨r, t, fun env henv => ?_⟩
        obtain ⟨env1, hg, hrel1, hpend1⟩ := getElements_of_reliable henv javaRow
        simp only [javaToEigenMatrix.loop, hlen, if_false, hg]
        rw [← hpend1]
        exact h env1 hrel1

theorem decode_char [Zero α] (A : jobjectArray α) :
    ∃ (r : Except String (MatrixXd α)) (t : Option JThrowable), ∀ env : JNIEnv, env.Reliable →
      (javaToEigenMatrix env A).1 = r ∧
      (javaToEigenMatrix env A).2.pending = t.or env.pending := by
  cases A with
  | nil => exact ⟨.ok (MatrixXd.create 0 0), none, fun env _ => ⟨rfl, by simp [javaToEigenMatrix]⟩⟩
  | cons r rs =>
    cases r with
    | none =>
      refine ⟨.ok (MatrixXd.create 0 0), some ⟨"java/lang/NullPointerException",
        "First row of Java matrix is null"⟩, fun env henv => ⟨by simp [javaToEigenMatrix], ?_⟩⟩
      simp only [javaToEigenMatrix, List.length_cons, Nat.add_one_ne_zero, if_false,
        List.head?_cons, Option.or]
      exact pending_throwNewOf henv _ _
    | some firstRow =>
      by_cases hc : firstRow.length = 0
      · refine ⟨.ok (MatrixXd.create (rs.length + 1) 0), none, fun env _ => ?_⟩
        simp [javaToEigenMatrix, hc]
      · obtain ⟨r, t, h⟩ :=
          decode_loop_char firstRow.length (some firstRow :: rs) 0
            (MatrixXd.create (rs.length + 1) firstRow.length)
        refine ⟨r, t, fun env henv => ?_⟩
        simp only [javaToEigenMatrix, List.length_cons, Nat.add_one_ne_zero, if_false,
          List.head?_cons, hc]
        exact h env henv

/-- Under a reliable environment the outcome of decoding does not depend on the environment, and
an exception pending on entry is still pending afterwards. -/
theorem decode_transfer [Zero α] {env env1 : JNIEnv} {A : jobjectArray α}
    {r : Except String (MatrixXd α)} (henv : env.Reliable)
    (hA : javaToEigenMatrix env A = (r, env1)) (hpend : env1.pending = none) :
    env.pending = none ∧
    ∀ envX : JNIEnv, envX.Reliable → envX.pending = none →
      ∃ envY, javaToEigenMatrix envX A = (r, envY) ∧ envY.Reliable ∧ envY.pending = none := by
  obtain ⟨r0, t, h⟩ := decode_char A
  have h1 := h env henv
  rw [hA] at h1
  obtain ⟨hr, hp⟩ := h1
  simp only at hr hp
  rw [hpend] at hp
  have ht : t = none ∧ env.pending = none := by
    cases t with
    | none => exact ⟨rfl, by simpa [Option.or] using hp.symm⟩
    | some e => simp [Option.or] at hp
  refine ⟨ht.2, fun envX hX hpX => ?_⟩
  have h2 := h envX hX
  have hrel := decode_reliable envX A hX
  refine ⟨(javaToEigenMatrix envX A).2, ?_, hrel, ?_⟩
  · apply Prod.ext
    · rw [h2.1, hr]
    · rfl
  · rw [h2.2, ht.1, hpX]; rfl

/-! ## Sums and differences of rectangular operands, with the environment they leave -/

theorem eq_of_entry {M N : List (List α)} {R C : Nat} (hM : M.length = R) (hN : N.length = R)
    (hMC : ∀ r ∈ M, r.length = C) (hNC : ∀ r ∈ N, r.length = C)
    (h : ∀ i j, i < R → j < C → entry M i j = entry N i j) : M = N := by
  apply List.ext_getElem (by rw [hM, hN])
  intro i h1 h2
  have hm : (M[i]).length = C := hMC _ (List.getElem_mem h1)
  have hn : (N[i]).length = C := hNC _ (List.getElem_mem h2)
  apply List.ext_getElem (by rw [hm, hn])
  intro j k1 k2
  have e := h i j (by omega) (by omega)
  simp only [entry, List.getElem?_eq_getElem h1, List.getElem?_eq_getElem h2, Option.some_bind,
    List.getElem?_eq_getElem k1, List.getElem?_eq_getElem k2, Option.some.injEq] at e
  exact e

theorem add_rect [Zero α] [Add α] (env : JNIEnv) (A B : List (List α)) (R C : Nat)
    (henv : env.Reliable) (hA : A.length = R) (hB : B.length = R)
    (hAC : ∀ r ∈ A, r.length = C) (hBC : ∀ r ∈ B, r.length = C) :
    ∃ res env1,
      Java_com_example_matrixcalculator_MatrixCalculatorBridge_addMatrices env
        (present A) (present B) = (some (present res), env1) ∧
      env1.Reliable ∧ env1.pending = env.pending ∧ res.length = R ∧
      (∀ r ∈ res, r.length = C) ∧
      ∀ i j, i < R → j < C →
        ∃ x y, entry A i j = some x ∧ entry B i j = some y ∧ entry res i j = some (x + y) := by
  obtain ⟨a, b, env1, env2, hda, hdb, hrel, hp, har, hbr, hcols, hC, hwa, hwb, hal, hbl⟩ :=
    decode_pair env A B R C henv hA hB hAC hBC
  obtain ⟨env3, he, hrel3, hp3⟩ := encode_ok env2 (a.add b) hrel
  have hrows : (a.add b).rows = R := har
  have hcs : (a.add b).cols = a.cols := rfl
  refine ⟨(a.add b).toLists, env3, ?_, hrel3, hp3.trans hp, ?_, ?_, ?_⟩
  · simp only [Java_com_example_matrixcalculator_MatrixCalculatorBridge_addMatrices, hda, hdb]
    rw [if_neg (by rw [har, hbr, hcols]; simp)]
    exact he
  · rw [length_toLists, hrows]
  · intro r hr
    have hpos : 0 < R := by
      have := List.length_pos_of_mem hr
      rw [length_toLists, hrows] at this
      exact this
    rw [length_of_mem_toLists _ hr, hcs, hC hpos]
  · intro i j hi hj
    have hc : a.cols = C := hC (by omega)
    refine ⟨a.coeff i j, b.coeff i j, ?_, ?_, ?_⟩
    · rw [← hal]; exact entry_toLists a (by omega) (by omega)
    · rw [← hbl]; exact entry_toLists b (by omega) (by omega)
    · rw [entry_toLists (a.add b) (by omega) (by rw [hcs]; omega)]
      congr 1
      exact coeff_zipWith (· + ·) a b (by rw [hwa, hc]) (by rw [hwb, hc]) har hbr hi hj

theorem sub_rect [Zero α] [Sub α] (env : JNIEnv) (A B : List (List α)) (R C : Nat)
    (henv : env.Reliable) (hA : A.length = R) (hB : B.length = R)
    (hAC : ∀ r ∈ A, r.length = C) (hBC : ∀ r ∈ B, r.length = C) :
    ∃ res env1,
      Java_com_example_matrixcalculator_MatrixCalculatorBridge_subtractMatrices env
        (present A) (present B) = (some (present res), env1) ∧
      env1.Reliable ∧ env1.pending = env.pending ∧ res.length = R ∧
      (∀ r ∈ res, r.length = C) ∧
      ∀ i j, i < R → j < C →
        ∃ x y, entry A i j = some x ∧ entry B i j = some y ∧ entry res i j = some (x - y) := by
  obtain ⟨a, b, env1, env2, hda, hdb, hrel, hp, har, hbr, hcols, hC, hwa, hwb, hal, hbl⟩ :=
    decode_pair env A B R C henv hA hB hAC hBC
  obtain ⟨env3, he, hrel3, hp3⟩ := encode_ok env2 (a.sub b) hrel
  have hrows : (a.sub b).rows = R := har
  have hcs : (a.sub b).cols = a.cols := rfl
  refine ⟨(a.sub b).toLists, env3, ?_, hrel3, hp3.trans hp, ?_, ?_, ?_⟩
  · simp only [Java_com_example_matrixcalculator_MatrixCalculatorBridge_subtractMatrices, hda,
      hdb]
    rw [if_neg (by rw [har, hbr, hcols]; simp)]
    exact he
  · rw [length_toLists, hrows]
  · intro r hr
    have hpos : 0 < R := by
      have := List.length_pos_of_mem hr
      rw [length_toLists, hrows] at this
      exact this
    rw [length_of_mem_toLists _ hr, hcs, hC hpos]
  · intro i j hi hj
    have hc : a.cols = C := hC (by omega)
    refine ⟨a.coeff i j, b.coeff i j, ?_, ?_, ?_⟩
    · rw [← hal]; exact entry_toLists a (by omega) (by omega)
    · rw [← hbl]; exact entry_toLists b (by omega) (by omega)
    · rw [entry_toLists (a.sub b) (by omega) (by rw [hcs]; omega)]
      congr 1
      exact coeff_zipWith (· - ·) a b (by rw [hwa, hc]) (by rw [hwb, hc]) har hbr hi hj

/-! ## Empty matrices -/

theorem decode_loop_dims [Zero α] (cols : Nat) (rows : jobjectArray α) (i : Nat)
    (m m2 : MatrixXd α) (env env1 : JNIEnv)
    (h : javaToEigenMatrix.loop cols rows i m env = (.ok m2, env1)) :
    m2 = MatrixXd.create 0 0 ∨ (m2.rows = m.rows ∧ m2.cols = m.cols) := by
  induction rows generalizing i m env with
  | nil =>
    simp only [javaToEigenMatrix.loop, Prod.mk.injEq, Except.ok.injEq] at h
    exact Or.inr ⟨by rw [h.1], by rw [h.1]⟩
  | cons r rs ih =>
    cases r with
    | none =>
      simp only [javaToEigenMatrix.loop, Prod.mk.injEq, Except.ok.injEq] at h
      exact Or.inl h.1.symm
    | some javaRow =>
      simp only [javaToEigenMatrix.loop] at h
      split at h
      · simp at h
      · split at h
        · simp only [Prod.mk.injEq, Except.ok.injEq] at h
          exact Or.inl h.1.symm
        · rcases ih _ _ _ h with h0 | ⟨h1, h2⟩
          · exact Or.inl h0
          · exact Or.inr ⟨h1, h2⟩

theorem decode_zero_rows [Zero α] (env env1 : JNIEnv) (A : jobjectArray α) (m : MatrixXd α)
    (h : javaToEigenMatrix env A = (.ok m, env1)) (hrows : m.rows = 0) : m.cols = 0 := by
  unfold javaToEigenMatrix at h
  simp only at h
  split at h
  · simp only [Prod.mk.injEq, Except.ok.injEq] at h
    rw [← h.1]; rfl
  · split at h
    · simp only [Prod.mk.injEq, Except.ok.injEq] at h
      rw [← h.1]; rfl
    · simp only [Prod.mk.injEq, Except.ok.injEq] at h
      rw [← h.1]; rfl
    · split at h
      · simp only [Prod.mk.injEq, Except.ok.injEq] at h
        rw [← h.1]; rfl
      · rename_i hne _ _ _ _
        rcases decode_loop_dims _ _ _ _ _ _ _ h with h0 | ⟨h1, _⟩
        · rw [h0]; rfl
        · rw [hrows] at h1
          exact absurd h1.symm hne

theorem toLists_of_cols_zero [Zero α] (m : MatrixXd α) (h : m.cols = 0) :
    m.toLists = List.replicate m.rows [] := by
  apply List.ext_getElem
  · simp [MatrixXd.toLists]
  · intro n h1 h2
    simp [MatrixXd.toLists, h]

theorem mul_of_inner_zero [Zero α] [Add α] [Mul α] (a b : MatrixXd α) (h : a.cols = 0) :
    a.mul b = ⟨a.rows, b.cols, List.replicate (a.rows * b.cols) 0⟩ := by
  simp only [MatrixXd.mul, MatrixXd.ofFn, h, List.range_zero, List.map_nil, List.sum_nil]
  congr 1
  rw [List.map_const', List.length_range]

theorem toLists_zero [Zero α] (R C : Nat) :
    (⟨R, C, List.replicate (R * C) 0⟩ : MatrixXd α).toLists
      = List.replicate R (List.replicate C 0) := by
  have hc : ∀ i j, (⟨R, C, List.replicate (R * C) 0⟩ : MatrixXd α).coeff i j = 0 := by
    intro i j
    simp only [MatrixXd.coeff, List.getD_eq_getElem?_getD]
    by_cases hlt : i + j * R < R * C
    · simp [List.getElem?_replicate, hlt]
    · simp [List.getElem?_replicate, hlt]
  apply List.ext_getElem
  · simp [MatrixXd.toLists]
  · intro n h1 h2
    simp only [MatrixXd.toLists, List.getElem_map, List.getElem_range, List.getElem_replicate, hc]
    rw [List.map_const', List.length_range]

/-! ## The errors thrown by decoding -/

theorem decode_loop_error_form [Zero α] (cols : Nat) (rows : jobjectArray α) (i : Nat)
    (m : MatrixXd α) (env env1 : JNIEnv) (e : String)
    (h : javaToEigenMatrix.loop cols rows i m env = (.error e, env1)) :
    ∃ n : Nat, e = "Inconsistent column count in matrix at row " ++ toString n := by
  induction rows generalizing i m env with
  | nil => simp [javaToEigenMatrix.loop] at h
  | cons r rs ih =>
    cases r with
    | none => simp [javaToEigenMatrix.loop] at h
    | some javaRow =>
      simp only [javaToEigenMatrix.loop] at h
      split at h
      · simp only [Prod.mk.injEq, Except.error.injEq] at h
        exact ⟨i, h.1.symm⟩
      · split at h
        · simp at h
        · exact ih _ _ _ h

theorem decode_error_form [Zero α] (env env1 : JNIEnv) (A : jobjectArray α) (e : String)
    (h : javaToEigenMatrix env A = (.error e, env1)) :
    ∃ n : Nat, e = "Inconsistent column count in matrix at row " ++ toString n := by
  unfold javaToEigenMatrix at h
  simp only at h
  split at h
  · simp at h
  · split at h
    · simp at h
    · simp at h
    · split at h
      · simp at h
      · exact decode_loop_error_form _ _ _ _ _ _ _ h

theorem shape_error_ne_mismatch (n : Nat) (operation : String) (a b : MatrixXd α) :
    "Inconsistent column count in matrix at row " ++ toString n
      ≠ dimensionsMustMatch operation a b := by
  intro h
  have h2 := congrArg (fun x => x.data.head?) h
  simp [dimensionsMustMatch, String.data_append] at h2

theorem shape_error_ne_incompatible (n : Nat) (a b : MatrixXd α) :
    "Inconsistent column count in matrix at row " ++ toString n
      ≠ dimensionsIncompatible a b := by
  intro h
  have h2 := congrArg (fun x => x.data.head?) h
  simp [dimensionsIncompatible, String.data_append] at h2

/-! ## Decoding without a pending exception keeps the number of rows -/

theorem decode_loop_rows_of_quiet [Zero α] (cols : Nat) (rows : jobjectArray α) (i : Nat)
    (m m2 : MatrixXd α) (env env1 : JNIEnv) (henv : env.Reliable)
    (h : javaToEigenMatrix.loop cols rows i m env = (.ok m2, env1))
    (hp : env1.pending = none) : m2.rows = m.rows := by
  induction rows generalizing i m env with
  | nil =>
    simp only [javaToEigenMatrix.loop, Prod.mk.injEq, Except.ok.injEq] at h
    rw [h.1]
  | cons r rs ih =>
    cases r with
    | none =>
      simp only [javaToEigenMatrix.loop, Prod.mk.injEq, Except.ok.injEq] at h
      have hq := pending_throwNewOf henv "java/lang/NullPointerException"
        ("Row " ++ toString i ++ " of Java matrix is null")
      rw [h.2, hp] at hq
      simp at hq
    | some javaRow =>
      obtain ⟨envG, hg, hrelG, _⟩ := getElements_of_reliable henv javaRow
      simp only [javaToEigenMatrix.loop, hg] at h
      split at h
      · simp at h
      · have h2 := ih _ _ _ hrelG h
        exact h2

theorem decode_zero_rows_input [Zero α] (env env1 : JNIEnv) (B : jobjectArray α)
    (b : MatrixXd α) (henv : env.Reliable) (h : javaToEigenMatrix env B = (.ok b, env1))
    (hp : env1.pending = none) (hrows : b.rows = 0) : B = [] := by
  cases B with
  | nil => rfl
  | cons r rs =>
    exfalso
    cases r with
    | none =>
      simp only [javaToEigenMatrix, List.length_cons, Nat.add_one_ne_zero, if_false,
        List.head?_cons, Prod.mk.injEq, Except.ok.injEq] at h
      have hq := pending_throwNewOf henv "java/lang/NullPointerException"
        "First row of Java matrix is null"
      rw [h.2, hp] at hq
      simp at hq
    | some firstRow =>
      simp only [javaToEigenMatrix, List.length_cons, Nat.add_one_ne_zero, if_false,
        List.head?_cons] at h
      split at h
      · simp only [Prod.mk.injEq, Except.ok.injEq] at h
        rw [← h.1] at hrows
        simp [MatrixXd.create] at hrows
      · have h2 := decode_loop_rows_of_quiet _ _ _ _ _ _ _ henv h hp
        rw [hrows] at h2
        simp [MatrixXd.create] at h2

/-! ## Occurrences in a message -/

theorem occursIn_self (x : String) : occursIn x x := List.infix_refl _

theorem occursIn_append_left {x s : String} (t : String) (h : occursIn x s) :
    occursIn x (s ++ t) := by
  unfold occursIn at h ⊢
  rw [String.data_append]
  exact h.trans (List.infix_append' [] s.data t.data)

theorem occursIn_append_right {x t : String} (s : String) (h : occursIn x t) :
    occursIn x (s ++ t) := by
  unfold occursIn at h ⊢
  rw [String.data_append]
  exact h.trans (List.suffix_append s.data t.data).isInfix

/-! ## Claims -/

/-- C1. Round trip. In an environment with nothing pending and no failing acquisition, decoding
a rectangular external matrix `M` (all rows present and of one length `C`; this covers the
matrix without rows and the matrices of `R ≥ 1` empty rows) succeeds, and encoding the decoded
matrix gives back a nested sequence equal to `M`, hence with the same rows, row lengths and
elements. No exception is pending afterwards. -/
theorem roundtrip_encode_decode [Zero α] (env : JNIEnv) (M : List (List α)) (C : Nat)
    (hpend : env.pending = none) (henv : env.Reliable) (hM : ∀ r ∈ M, r.length = C) :
    ∃ m env1 env2, javaToEigenMatrix env (present M) = (.ok m, env1) ∧
      env1.pending = none ∧
      eigenToJavaMatrix env1 m = (some (present M), env2) ∧ env2.pending = none := by
  obtain ⟨m, env1, hd, hrel1, hpend1, _, _, _, hl⟩ := decode_rect env M C hM henv
  obtain ⟨env2, he, _, hpend2⟩ := encode_ok env1 m hrel1
  refine ⟨m, env1, env2, hd, hpend1.trans hpend, ?_, (hpend2.trans hpend1).trans hpend⟩
  rw [he, hl]

/-- C1, at the inputs the claim singles out: a 2 by 3 matrix, the matrix without rows and a
matrix of two empty rows. -/
theorem roundtrip_encode_decode_witness :
    (JNIEnv.fresh.pending = none ∧ JNIEnv.fresh.Reliable ∧
      (∀ r ∈ ([[1, 2, 3], [4, 5, 6]] : List (List Int)), r.length = 3)) ∧
    (∃ m env1 env2,
      javaToEigenMatrix JNIEnv.fresh (present ([[1, 2, 3], [4, 5, 6]] : List (List Int)))
        = (.ok m, env1) ∧ env1.pending = none ∧
      eigenToJavaMatrix env1 m = (some (present [[1, 2, 3], [4, 5, 6]]), env2) ∧
      env2.pending = none) ∧
    (eigenToJavaMatrix JNIEnv.fresh (⟨0, 0, []⟩ : MatrixXd Int)
        = (some (present []), JNIEnv.fresh) ∧
      javaToEigenMatrix JNIEnv.fresh (present ([] : List (List Int)))
        = (.ok ⟨0, 0, []⟩, JNIEnv.fresh)) ∧
    (eigenToJavaMatrix JNIEnv.fresh (⟨2, 0, []⟩ : MatrixXd Int)
        = (some (present [[], []]), JNIEnv.fresh) ∧
      javaToEigenMatrix JNIEnv.fresh (present ([[], []] : List (List Int)))
        = (.ok ⟨2, 0, []⟩, JNIEnv.fresh)) :=
  ⟨⟨rfl, by decide, by decide⟩,
    roundtrip_encode_decode JNIEnv.fresh [[1, 2, 3], [4, 5, 6]] 3 rfl (by decide) (by decide),
    ⟨by decide, rfl⟩, ⟨by decide, rfl⟩⟩

/-- C2. Addition of two rectangular external matrices of the same shape `R` by `C`, in an
environment with nothing pending and no failing acquisition: `addMatrices` returns an external
matrix whose rows are all present, with exactly `R` rows of `C` elements, and element `(i, j)`
is `A[i][j] + B[i][j]`; no exception is pending afterwards. -/
theorem addMatrices_elementwise [Zero α] [Add α] (env : JNIEnv) (A B : List (List α))
    (R C : Nat) (hpend : env.pending = none) (henv : env.Reliable)
    (hA : A.length = R) (hB : B.length = R)
    (hAC : ∀ r ∈ A, r.length = C) (hBC : ∀ r ∈ B, r.length = C) :
    ∃ res env1,
      Java_com_example_matrixcalculator_MatrixCalculatorBridge_addMatrices env
        (present A) (present B) = (some (present res), env1) ∧
      env1.pending = none ∧ res.length = R ∧ (∀ r ∈ res, r.length = C) ∧
      ∀ i j, i < R → j < C →
        ∃ x y, entry A i j = some x ∧ entry B i j = some y ∧ entry res i j = some (x + y) := by
  obtain ⟨a, b, env1, env2, hda, hdb, hrel, hp, har, hbr, hcols, hC, hwa, hwb, hal, hbl⟩ :=
    decode_pair env A B R C henv hA hB hAC hBC
  obtain ⟨env3, he, _, hp3⟩ := encode_ok env2 (a.add b) hrel
  have hrows : (a.add b).rows = R := har
  have hcs : (a.add b).cols = a.cols := rfl
  refine ⟨(a.add b).toLists, env3, ?_, (hp3.trans hp).trans hpend, ?_, ?_, ?_⟩
  · simp only [Java_com_example_matrixcalculator_MatrixCalculatorBridge_addMatrices, hda, hdb]
    rw [if_neg (by rw [har, hbr, hcols]; simp)]
    exact he
  · rw [length_toLists, hrows]
  · intro r hr
    have hpos : 0 < R := by
      have := List.length_pos_of_mem hr
      rw [length_toLists, hrows] at this
      exact this
    rw [length_of_mem_toLists _ hr, hcs, hC hpos]
  · intro i j hi hj
    have hc : a.cols = C := hC (by omega)
    refine ⟨a.coeff i j, b.coeff i j, ?_, ?_, ?_⟩
    · rw [← hal]; exact entry_toLists a (by omega) (by omega)
    · rw [← hbl]; exact entry_toLists b (by omega) (by omega)
    · rw [entry_toLists (a.add b) (by omega) (by rw [hcs]; omega)]
      congr 1
      exact coeff_zipWith (· + ·) a b (by rw [hwa, hc]) (by rw [hwb, hc]) har hbr hi hj

/-- C2, at the example of the claim: `add([[1,2],[3,4]], [[5,6],[7,8]]) = [[6,8],[10,12]]`. -/
theorem addMatrices_elementwise_witness :
    (JNIEnv.fresh.pending = none ∧ JNIEnv.fresh.Reliable ∧
      ([[1, 2], [3, 4]] : List (List Int)).length = 2 ∧
      ([[5, 6], [7, 8]] : List (List Int)).length = 2 ∧
      (∀ r ∈ ([[1, 2], [3, 4]] : List (List Int)), r.length = 2) ∧
      (∀ r ∈ ([[5, 6], [7, 8]] : List (List Int)), r.length = 2)) ∧
    (∃ res env1,
      Java_com_example_matrixcalculator_MatrixCalculatorBridge_addMatrices JNIEnv.fresh
        (present ([[1, 2], [3, 4]] : List (List Int))) (present [[5, 6], [7, 8]])
        = (some (present res), env1) ∧
      env1.pending = none ∧ res.length = 2 ∧ (∀ r ∈ res, r.length = 2) ∧
      ∀ i j, i < 2 → j < 2 →
        ∃ x y, entry ([[1, 2], [3, 4]] : List (List Int)) i j = some x ∧
          entry ([[5, 6], [7, 8]] : List (List Int)) i j = some y ∧
          entry res i j = some (x + y)) ∧
    Java_com_example_matrixcalculator_MatrixCalculatorBridge_addMatrices JNIEnv.fresh
        (present ([[1, 2], [3, 4]] : List (List Int))) (present [[5, 6], [7, 8]])
      = (some (present [[6, 8], [10, 12]]), JNIEnv.fresh) :=
  ⟨⟨rfl, by decide, rfl, rfl, by decide, by decide⟩,
    addMatrices_elementwise JNIEnv.fresh [[1, 2], [3, 4]] [[5, 6], [7, 8]] 2 2 rfl (by decide)
      rfl rfl (by decide) (by decide),
    by decide⟩

/-- C3. Multiplication of a rectangular `R` by `K` external matrix `A` with a rectangular `K` by
`C` external matrix `B`, with `R` and `K` at least one (the claim also asks for `C ≥ 1`, which
the proof does not need), in an environment with nothing pending and no failing acquisition: `multiplyMatrices` returns an external matrix whose rows are
all present, with exactly `R` rows of `C` elements. Element `(i, j)` is the sum of the products
of row `i` of `A` (the list `xs`) with column `j` of `B` (the list `ys`, whose `k`-th element is
`B[k][j]`), that is, the sum over `k < K` of `A[i][k] * B[k][j]`. No exception is pending
afterwards. -/
theorem multiplyMatrices_elementwise [Zero α] [Add α] [Mul α] (env : JNIEnv)
    (A B : List (List α)) (R K C : Nat) (hpend : env.pending = none) (henv : env.Reliable)
    (hR : 1 ≤ R) (hK : 1 ≤ K) (hA : A.length = R) (hB : B.length = K)
    (hAK : ∀ r ∈ A, r.length = K) (hBC : ∀ r ∈ B, r.length = C) :
    ∃ res env1,
      Java_com_example_matrixcalculator_MatrixCalculatorBridge_multiplyMatrices env
        (present A) (present B) = (some (present res), env1) ∧
      env1.pending = none ∧ res.length = R ∧ (∀ r ∈ res, r.length = C) ∧
      ∀ i j, i < R → j < C →
        ∃ xs ys, A[i]? = some xs ∧ xs.length = K ∧ ys.length = K ∧
          (∀ k, k < K → entry B k j = ys[k]?) ∧
          entry res i j = some ((List.zipWith (· * ·) xs ys).sum) := by
  obtain ⟨a, env1, hda, hrel1, hpend1, harows, hacols, _, hal⟩ :=
    decode_rect env A K hAK henv
  obtain ⟨b, env2, hdb, hrel2, hpend2, hbrows, hbcols, _, hbl⟩ :=
    decode_rect env1 B C hBC hrel1
  obtain ⟨env3, he, _, hp3⟩ := encode_ok env2 (a.mul b) hrel2
  rw [hA, if_neg (by omega)] at hacols
  rw [hB, if_neg (by omega)] at hbcols
  rw [hA] at harows
  rw [hB] at hbrows
  have hrows : (a.mul b).rows = R := harows
  have hcols : (a.mul b).cols = C := hbcols
  refine ⟨(a.mul b).toLists, env3, ?_, ((hp3.trans hpend2).trans hpend1).trans hpend, ?_, ?_,
    ?_⟩
  · simp only [Java_com_example_matrixcalculator_MatrixCalculatorBridge_multiplyMatrices, hda,
      hdb]
    rw [if_neg (by rw [hacols, hbrows]; simp)]
    exact he
  · rw [length_toLists, hrows]
  · intro r hr
    rw [length_of_mem_toLists _ hr, hcols]
  · intro i j hi hj
    refine ⟨(List.range K).map (fun k => a.coeff i k), (List.range K).map (fun k => b.coeff k j),
      ?_, by simp, by simp, ?_, ?_⟩
    · rw [← hal, getElem?_toLists a (by omega), hacols]
    · intro k hk
      rw [← hbl, entry_toLists b (by omega) (by omega)]
      simp [List.getElem?_range hk]
    · rw [entry_toLists (a.mul b) (by omega) (by omega),
        coeff_mul a b (by omega) (by omega), hacols]
      congr 2
      rw [List.zipWith_map, List.zipWith_same]

/-- C3, at the example of the claim:
`multiply([[1,2],[3,4]], [[5,6],[7,8]]) = [[19,22],[43,50]]`. -/
theorem multiplyMatrices_elementwise_witness :
    (JNIEnv.fresh.pending = none ∧ JNIEnv.fresh.Reliable ∧ 1 ≤ 2 ∧
      ([[1, 2], [3, 4]] : List (List Int)).length = 2 ∧
      ([[5, 6], [7, 8]] : List (List Int)).length = 2 ∧
      (∀ r ∈ ([[1, 2], [3, 4]] : List (List Int)), r.length = 2) ∧
      (∀ r ∈ ([[5, 6], [7, 8]] : List (List Int)), r.length = 2)) ∧
    (∃ res env1,
      Java_com_example_matrixcalculator_MatrixCalculatorBridge_multiplyMatrices JNIEnv.fresh
        (present ([[1, 2], [3, 4]] : List (List Int))) (present [[5, 6], [7, 8]])
        = (some (present res), env1) ∧
      env1.pending = none ∧ res.length = 2 ∧ (∀ r ∈ res, r.length = 2) ∧
      ∀ i j, i < 2 → j < 2 →
        ∃ xs ys, ([[1, 2], [3, 4]] : List (List Int))[i]? = some xs ∧ xs.length = 2 ∧
          ys.length = 2 ∧
          (∀ k, k < 2 → entry ([[5, 6], [7, 8]] : List (List Int)) k j = ys[k]?) ∧
          entry res i j = some ((List.zipWith (· * ·) xs ys).sum)) ∧
    Java_com_example_matrixcalculator_MatrixCalculatorBridge_multiplyMatrices JNIEnv.fresh
        (present ([[1, 2], [3, 4]] : List (List Int))) (present [[5, 6], [7, 8]])
      = (some (present [[19, 22], [43, 50]]), JNIEnv.fresh) :=
  ⟨⟨rfl, by decide, by decide, rfl, rfl, by decide, by decide⟩,
    multiplyMatrices_elementwise JNIEnv.fresh [[1, 2], [3, 4]] [[5, 6], [7, 8]] 2 2 2 rfl
      (by decide) (by decide) (by decide) rfl rfl (by decide) (by decide),
    by decide⟩

/-- C4. Subtraction of two rectangular external matrices of the same shape `R` by `C`, in an
environment with nothing pending and no failing acquisition: `subtractMatrices` returns an
external matrix whose rows are all present, with exactly `R` rows of `C` elements, and element
`(i, j)` is `A[i][j] - B[i][j]`, the first operand minus the second; no exception is pending
afterwards. -/
theorem subtractMatrices_elementwise [Zero α] [Sub α] (env : JNIEnv) (A B : List (List α))
    (R C : Nat) (hpend : env.pending = none) (henv : env.Reliable)
    (hA : A.length = R) (hB : B.length = R)
    (hAC : ∀ r ∈ A, r.length = C) (hBC : ∀ r ∈ B, r.length = C) :
    ∃ res env1,
      Java_com_example_matrixcalculator_MatrixCalculatorBridge_subtractMatrices env
        (present A) (present B) = (some (present res), env1) ∧
      env1.pending = none ∧ res.length = R ∧ (∀ r ∈ res, r.length = C) ∧
      ∀ i j, i < R → j < C →
        ∃ x y, entry A i j = some x ∧ entry B i j = some y ∧ entry res i j = some (x - y) := by
  obtain ⟨a, b, env1, env2, hda, hdb, hrel, hp, har, hbr, hcols, hC, hwa, hwb, hal, hbl⟩ :=
    decode_pair env A B R C henv hA hB hAC hBC
  obtain ⟨env3, he, _, hp3⟩ := encode_ok env2 (a.sub b) hrel
  have hrows : (a.sub b).rows = R := har
  have hcs : (a.sub b).cols = a.cols := rfl
  refine ⟨(a.sub b).toLists, env3, ?_, (hp3.trans hp).trans hpend, ?_, ?_, ?_⟩
  · simp only [Java_com_example_matrixcalculator_MatrixCalculatorBridge_subtractMatrices, hda,
      hdb]
    rw [if_neg (by rw [har, hbr, hcols]; simp)]
    exact he
  · rw [length_toLists, hrows]
  · intro r hr
    have hpos : 0 < R := by
      have := List.length_pos_of_mem hr
      rw [length_toLists, hrows] at this
      exact this
    rw [length_of_mem_toLists _ hr, hcs, hC hpos]
  · intro i j hi hj
    have hc : a.cols = C := hC (by omega)
    refine ⟨a.coeff i j, b.coeff i j, ?_, ?_, ?_⟩
    · rw [← hal]; exact entry_toLists a (by omega) (by omega)
    · rw [← hbl]; exact entry_toLists b (by omega) (by omega)
    · rw [entry_toLists (a.sub b) (by omega) (by rw [hcs]; omega)]
      congr 1
      exact coeff_zipWith (· - ·) a b (by rw [hwa, hc]) (by rw [hwb, hc]) har hbr hi hj

/-- C4, at a concrete pair: `subtract([[5,6],[7,8]], [[1,2],[3,5]]) = [[4,4],[4,3]]`, which is
not the reverse difference. -/
theorem subtractMatrices_elementwise_witness :
    (JNIEnv.fresh.pending = none ∧ JNIEnv.fresh.Reliable ∧
      ([[5, 6], [7, 8]] : List (List Int)).length = 2 ∧
      ([[1, 2], [3, 5]] : List (List Int)).length = 2 ∧
      (∀ r ∈ ([[5, 6], [7, 8]] : List (List Int)), r.length = 2) ∧
      (∀ r ∈ ([[1, 2], [3, 5]] : List (List Int)), r.length = 2)) ∧
    (∃ res env1,
      Java_com_example_matrixcalculator_MatrixCalculatorBridge_subtractMatrices JNIEnv.fresh
        (present ([[5, 6], [7, 8]] : List (List Int))) (present [[1, 2], [3, 5]])
        = (some (present res), env1) ∧
      env1.pending = none ∧ res.length = 2 ∧ (∀ r ∈ res, r.length = 2) ∧
      ∀ i j, i < 2 → j < 2 →
        ∃ x y, entry ([[5, 6], [7, 8]] : List (List Int)) i j = some x ∧
          entry ([[1, 2], [3, 5]] : List (List Int)) i j = some y ∧
          entry res i j = some (x - y)) ∧
    Java_com_example_matrixcalculator_MatrixCalculatorBridge_subtractMatrices JNIEnv.fresh
        (present ([[5, 6], [7, 8]] : List (List Int))) (present [[1, 2], [3, 5]])
      = (some (present [[4, 4], [4, 3]]), JNIEnv.fresh) :=
  ⟨⟨rfl, by decide, rfl, rfl, by decide, by decide⟩,
    subtractMatrices_elementwise JNIEnv.fresh [[5, 6], [7, 8]] [[1, 2], [3, 5]] 2 2 rfl
      (by decide) rfl rfl (by decide) (by decide),
    by decide⟩

/-- C5. Dimension check of addition and subtraction. Let the two operands decode, one after the
other, to matrices `a` and `b` with no exception pending afterwards, in an environment where no
acquisition fails. Then `addMatrices` fails with the dimension mismatch error (it returns `null`
and a `RuntimeException` with the message of the dimension check is pending) if and only if
`a.rows ≠ b.rows` or `a.cols ≠ b.cols`; the same holds of `subtractMatrices`; and when the
dimensions agree both return a result with no exception pending. -/
theorem add_sub_dimension_check [Zero α] [Add α] [Sub α] (env env1 env2 : JNIEnv)
    (A B : jobjectArray α) (a b : MatrixXd α) (henv : env.Reliable)
    (hA : javaToEigenMatrix env A = (.ok a, env1))
    (hB : javaToEigenMatrix env1 B = (.ok b, env2))
    (hpend : env2.pending = none) :
    (((Java_com_example_matrixcalculator_MatrixCalculatorBridge_addMatrices env A B).1 = none ∧
        (Java_com_example_matrixcalculator_MatrixCalculatorBridge_addMatrices env A B).2.pending
          = some ⟨"java/lang/RuntimeException", dimensionsMustMatch "addition" a b⟩)
      ↔ (a.rows ≠ b.rows ∨ a.cols ≠ b.cols)) ∧
    (((Java_com_example_matrixcalculator_MatrixCalculatorBridge_subtractMatrices env A B).1
          = none ∧
        (Java_com_example_matrixcalculator_MatrixCalculatorBridge_subtractMatrices
            env A B).2.pending
          = some ⟨"java/lang/RuntimeException", dimensionsMustMatch "subtraction" a b⟩)
      ↔ (a.rows ≠ b.rows ∨ a.cols ≠ b.cols)) ∧
    (¬ (a.rows ≠ b.rows ∨ a.cols ≠ b.cols) →
      ∃ sum difference envS envD,
        Java_com_example_matrixcalculator_MatrixCalculatorBridge_addMatrices env A B
          = (some sum, envS) ∧ envS.pending = none ∧
        Java_com_example_matrixcalculator_MatrixCalculatorBridge_subtractMatrices env A B
          = (some difference, envD) ∧ envD.pending = none) := by
  have hrel1 : env1.Reliable := by
    have h := decode_reliable env A henv
    rw [hA] at h; exact h
  have hrel2 : env2.Reliable := by
    have h := decode_reliable env1 B hrel1
    rw [hB] at h; exact h
  obtain ⟨envS, heS, _, hpS⟩ := encode_ok env2 (a.add b) hrel2
  obtain ⟨envD, heD, _, hpD⟩ := encode_ok env2 (a.sub b) hrel2
  obtain ⟨envA, hcA, _, hpA⟩ :=
    catchStdException_of_reliable α hrel2 (dimensionsMustMatch "addition" a b)
  obtain ⟨envB, hcB, _, hpB⟩ :=
    catchStdException_of_reliable α hrel2 (dimensionsMustMatch "subtraction" a b)
  by_cases hdim : a.rows ≠ b.rows ∨ a.cols ≠ b.cols
  · have h1 : Java_com_example_matrixcalculator_MatrixCalculatorBridge_addMatrices env A B
        = (none, envA) := by
      simp only [Java_com_example_matrixcalculator_MatrixCalculatorBridge_addMatrices, hA, hB]
      rw [if_pos hdim]; exact hcA
    have h2 : Java_com_example_matrixcalculator_MatrixCalculatorBridge_subtractMatrices env A B
        = (none, envB) := by
      simp only [Java_com_example_matrixcalculator_MatrixCalculatorBridge_subtractMatrices, hA,
        hB]
      rw [if_pos hdim]; exact hcB
    rw [h1, h2]
    exact ⟨⟨fun _ => hdim, fun _ => ⟨rfl, hpA⟩⟩, ⟨fun _ => hdim, fun _ => ⟨rfl, hpB⟩⟩,
      fun h => absurd hdim h⟩
  · have h1 : Java_com_example_matrixcalculator_MatrixCalculatorBridge_addMatrices env A B
        = (some (present (a.add b).toLists), envS) := by
      simp only [Java_com_example_matrixcalculator_MatrixCalculatorBridge_addMatrices, hA, hB]
      rw [if_neg hdim]; exact heS
    have h2 : Java_com_example_matrixcalculator_MatrixCalculatorBridge_subtractMatrices env A B
        = (some (present (a.sub b).toLists), envD) := by
      simp only [Java_com_example_matrixcalculator_MatrixCalculatorBridge_subtractMatrices, hA,
        hB]
      rw [if_neg hdim]; exact heD
    rw [h1, h2]
    refine ⟨⟨fun h => ?_, fun h => absurd h hdim⟩, ⟨fun h => ?_, fun h => absurd h hdim⟩,
      fun _ => ⟨_, _, envS, envD, rfl, hpS.trans hpend, rfl, hpD.trans hpend⟩⟩
    · exact absurd h.1 (by simp)
    · exact absurd h.1 (by simp)

/-- C5, at the example of the claim: `add([[1,2]], [[1,2,3]])` fails, and so does the
subtraction of the same operands. -/
theorem add_sub_dimension_check_witness :
    (JNIEnv.fresh.Reliable ∧
      javaToEigenMatrix JNIEnv.fresh (present ([[1, 2]] : List (List Int)))
        = (.ok ⟨1, 2, [1, 2]⟩, JNIEnv.fresh) ∧
      javaToEigenMatrix JNIEnv.fresh (present ([[1, 2, 3]] : List (List Int)))
        = (.ok ⟨1, 3, [1, 2, 3]⟩, JNIEnv.fresh) ∧
      JNIEnv.fresh.pending = none) ∧
    ((((Java_com_example_matrixcalculator_MatrixCalculatorBridge_addMatrices JNIEnv.fresh
            (present ([[1, 2]] : List (List Int))) (present [[1, 2, 3]])).1 = none ∧
        (Java_com_example_matrixcalculator_MatrixCalculatorBridge_addMatrices JNIEnv.fresh
            (present ([[1, 2]] : List (List Int))) (present [[1, 2, 3]])).2.pending
          = some ⟨"java/lang/RuntimeException",
              dimensionsMustMatch "addition" (⟨1, 2, [1, 2]⟩ : MatrixXd Int)
                (⟨1, 3, [1, 2, 3]⟩ : MatrixXd Int)⟩)
      ↔ ((1 : Nat) ≠ 1 ∨ (2 : Nat) ≠ 3)) ∧
    (((Java_com_example_matrixcalculator_MatrixCalculatorBridge_subtractMatrices JNIEnv.fresh
            (present ([[1, 2]] : List (List Int))) (present [[1, 2, 3]])).1 = none ∧
        (Java_com_example_matrixcalculator_MatrixCalculatorBridge_subtractMatrices JNIEnv.fresh
            (present ([[1, 2]] : List (List Int))) (present [[1, 2, 3]])).2.pending
          = some ⟨"java/lang/RuntimeException",
              dimensionsMustMatch "subtraction" (⟨1, 2, [1, 2]⟩ : MatrixXd Int)
                (⟨1, 3, [1, 2, 3]⟩ : MatrixXd Int)⟩)
      ↔ ((1 : Nat) ≠ 1 ∨ (2 : Nat) ≠ 3)) ∧
    (¬ ((1 : Nat) ≠ 1 ∨ (2 : Nat) ≠ 3) →
      ∃ sum difference envS envD,
        Java_com_example_matrixcalculator_MatrixCalculatorBridge_addMatrices JNIEnv.fresh
            (present ([[1, 2]] : List (List Int))) (present [[1, 2, 3]])
          = (some sum, envS) ∧ envS.pending = none ∧
        Java_com_example_matrixcalculator_MatrixCalculatorBridge_subtractMatrices JNIEnv.fresh
            (present ([[1, 2]] : List (List Int))) (present [[1, 2, 3]])
          = (some difference, envD) ∧ envD.pending = none)) ∧
    Java_com_example_matrixcalculator_MatrixCalculatorBridge_addMatrices JNIEnv.fresh
        (present ([[1, 2]] : List (List Int))) (present [[1, 2, 3]])
      = (none, ⟨some ⟨"java/lang/RuntimeException",
          "Matrix dimensions must match for addition (1x2 vs 1x3)"⟩, []⟩) :=
  ⟨⟨by decide, rfl, rfl, rfl⟩,
    add_sub_dimension_check JNIEnv.fresh JNIEnv.fresh JNIEnv.fresh (present [[1, 2]])
      (present [[1, 2, 3]]) ⟨1, 2, [1, 2]⟩ ⟨1, 3, [1, 2, 3]⟩ (by decide) rfl rfl rfl,
    by decide⟩

/-- C6. Dimension check of multiplication. Let the two operands decode, one after the other, to
matrices `a` and `b` with no exception pending afterwards, in an environment where no
acquisition fails. Then `multiplyMatrices` fails with the dimension mismatch error (it returns
`null` and a `RuntimeException` with the message of the dimension check is pending) if and only
if `a.cols ≠ b.rows`; otherwise it returns a result of `a.rows` rows, all present, each of
`b.cols` elements, with no exception pending. -/
theorem multiply_dimension_check [Zero α] [Add α] [Mul α] (env env1 env2 : JNIEnv)
    (A B : jobjectArray α) (a b : MatrixXd α) (henv : env.Reliable)
    (hA : javaToEigenMatrix env A = (.ok a, env1))
    (hB : javaToEigenMatrix env1 B = (.ok b, env2))
    (hpend : env2.pending = none) :
    (((Java_com_example_matrixcalculator_MatrixCalculatorBridge_multiplyMatrices env A B).1
          = none ∧
        (Java_com_example_matrixcalculator_MatrixCalculatorBridge_multiplyMatrices
            env A B).2.pending
          = some ⟨"java/lang/RuntimeException", dimensionsIncompatible a b⟩)
      ↔ a.cols ≠ b.rows) ∧
    (¬ a.cols ≠ b.rows →
      ∃ res env3,
        Java_com_example_matrixcalculator_MatrixCalculatorBridge_multiplyMatrices env A B
          = (some (present res), env3) ∧ env3.pending = none ∧
        res.length = a.rows ∧ ∀ r ∈ res, r.length = b.cols) := by
  have hrel1 : env1.Reliable := by
    have h := decode_reliable env A henv
    rw [hA] at h; exact h
  have hrel2 : env2.Reliable := by
    have h := decode_reliable env1 B hrel1
    rw [hB] at h; exact h
  obtain ⟨envP, heP, _, hpP⟩ := encode_ok env2 (a.mul b) hrel2
  obtain ⟨envE, hcE, _, hpE⟩ :=
    catchStdException_of_reliable α hrel2 (dimensionsIncompatible a b)
  by_cases hdim : a.cols ≠ b.rows
  · have h1 : Java_com_example_matrixcalculator_MatrixCalculatorBridge_multiplyMatrices env A B
        = (none, envE) := by
      simp only [Java_com_example_matrixcalculator_MatrixCalculatorBridge_multiplyMatrices, hA,
        hB]
      rw [if_pos hdim]; exact hcE
    rw [h1]
    exact ⟨⟨fun _ => hdim, fun _ => ⟨rfl, hpE⟩⟩, fun h => absurd hdim h⟩
  · have h1 : Java_com_example_matrixcalculator_MatrixCalculatorBridge_multiplyMatrices env A B
        = (some (present (a.mul b).toLists), envP) := by
      simp only [Java_com_example_matrixcalculator_MatrixCalculatorBridge_multiplyMatrices, hA,
        hB]
      rw [if_neg hdim]; exact heP
    rw [h1]
    refine ⟨⟨fun h => absurd h.1 (by simp), fun h => absurd h hdim⟩,
      fun _ => ⟨_, envP, rfl, hpP.trans hpend, ?_, ?_⟩⟩
    · rw [length_toLists]; rfl
    · intro r hr
      rw [length_of_mem_toLists _ hr]; rfl

/-- C6, at the example of the claim: `multiply([[1,2]], [[1,2]])`, 1 by 2 times 1 by 2,
fails. -/
theorem multiply_dimension_check_witness :
    (JNIEnv.fresh.Reliable ∧
      javaToEigenMatrix JNIEnv.fresh (present ([[1, 2]] : List (List Int)))
        = (.ok ⟨1, 2, [1, 2]⟩, JNIEnv.fresh) ∧
      JNIEnv.fresh.pending = none) ∧
    ((((Java_com_example_matrixcalculator_MatrixCalculatorBridge_multiplyMatrices JNIEnv.fresh
            (present ([[1, 2]] : List (List Int))) (present [[1, 2]])).1 = none ∧
        (Java_com_example_matrixcalculator_MatrixCalculatorBridge_multiplyMatrices JNIEnv.fresh
            (present ([[1, 2]] : List (List Int))) (present [[1, 2]])).2.pending
          = some ⟨"java/lang/RuntimeException",
              dimensionsIncompatible (⟨1, 2, [1, 2]⟩ : MatrixXd Int)
                (⟨1, 2, [1, 2]⟩ : MatrixXd Int)⟩)
      ↔ (2 : Nat) ≠ 1) ∧
    (¬ (2 : Nat) ≠ 1 →
      ∃ res env3,
        Java_com_example_matrixcalculator_MatrixCalculatorBridge_multiplyMatrices JNIEnv.fresh
            (present ([[1, 2]] : List (List Int))) (present [[1, 2]])
          = (some (present res), env3) ∧ env3.pending = none ∧
        res.length = 1 ∧ ∀ r ∈ res, r.length = 2)) ∧
    Java_com_example_matrixcalculator_MatrixCalculatorBridge_multiplyMatrices JNIEnv.fresh
        (present ([[1, 2]] : List (List Int))) (present [[1, 2]])
      = (none, ⟨some ⟨"java/lang/RuntimeException",
          "Matrix dimensions incompatible for multiplication (A.cols 2 != B.rows 1)"⟩, []⟩) :=
  ⟨⟨by decide, rfl, rfl⟩,
    multiply_dimension_check JNIEnv.fresh JNIEnv.fresh JNIEnv.fresh (present [[1, 2]])
      (present [[1, 2]]) ⟨1, 2, [1, 2]⟩ ⟨1, 2, [1, 2]⟩ (by decide) rfl rfl rfl,
    by decide⟩

/-- C7. The code at the input `[[], [1]]`: the second row has one element and the first none,
yet `javaToEigenMatrix` throws nothing; it returns a 2 by 0 matrix and the element `1` is
dropped. With a first row that is not empty the same kind of input is rejected:
`[[1, 2], [3]]` throws. -/
theorem decode_accepts_jagged_after_empty_row :
    javaToEigenMatrix JNIEnv.fresh (present ([[], [1]] : List (List Int)))
      = (.ok ⟨2, 0, []⟩, JNIEnv.fresh) ∧
    javaToEigenMatrix JNIEnv.fresh (present ([[1, 2], [3]] : List (List Int)))
      = (.error "Inconsistent column count in matrix at row 1", JNIEnv.fresh) :=
  ⟨rfl, rfl⟩

/-- C8. Let the first row of an external matrix `M` without absent rows be non-empty, and let
`i` be the smallest index of a row whose length differs from that of the first row. In an
environment where no acquisition fails, `javaToEigenMatrix` throws the `std::runtime_error`
whose message ends in the decimal numeral of `i`, and makes no Java exception pending. -/
theorem shape_error_names_first_offending_row [Zero α] (env : JNIEnv) (M : List (List α))
    (first bad : List α) (i : Nat) (henv : env.Reliable)
    (hfirst : M[0]? = some first) (hne : first.length ≠ 0)
    (hbad : M[i]? = some bad) (hlen : bad.length ≠ first.length)
    (hmin : ∀ n r, n < i → M[n]? = some r → r.length = first.length) :
    ∃ env1, javaToEigenMatrix env (present M)
        = (.error ("Inconsistent column count in matrix at row " ++ toString i), env1) ∧
      env1.pending = env.pending := by
  cases M with
  | nil => simp at hfirst
  | cons r rs =>
    simp only [List.getElem?_cons_zero, Option.some.injEq] at hfirst
    subst hfirst
    obtain ⟨env1, hloop, hp⟩ :=
      decode_loop_error r.length (r :: rs) i 0 (MatrixXd.create (rs.length + 1) r.length) env
        bad henv hbad hlen hmin
    refine ⟨env1, ?_, hp⟩
    rw [Nat.zero_add] at hloop
    simp only [javaToEigenMatrix, present, List.map_cons, List.length_cons, List.length_map,
      List.head?_cons, hne, if_false, Nat.add_one_ne_zero]
    exact hloop

/-- C8, at the example of the claim: decoding `[[1,2],[3]]` fails with an error that references
row index 1. -/
theorem shape_error_names_first_offending_row_witness :
    (JNIEnv.fresh.Reliable ∧ ([[1, 2], [3]] : List (List Int))[0]? = some [1, 2] ∧
      ([1, 2] : List Int).length ≠ 0 ∧ ([[1, 2], [3]] : List (List Int))[1]? = some [3] ∧
      ([3] : List Int).length ≠ ([1, 2] : List Int).length ∧
      (∀ n r, n < 1 → ([[1, 2], [3]] : List (List Int))[n]? = some r →
        r.length = ([1, 2] : List Int).length)) ∧
    (∃ env1, javaToEigenMatrix JNIEnv.fresh (present ([[1, 2], [3]] : List (List Int)))
        = (.error ("Inconsistent column count in matrix at row " ++ toString 1), env1) ∧
      env1.pending = JNIEnv.fresh.pending) ∧
    javaToEigenMatrix JNIEnv.fresh (present ([[1, 2], [3]] : List (List Int)))
      = (.error "Inconsistent column count in matrix at row 1", JNIEnv.fresh) :=
  have hmin : ∀ n r, n < 1 → ([[1, 2], [3]] : List (List Int))[n]? = some r →
      r.length = ([1, 2] : List Int).length := by
    intro n r hn hr
    have h0 : n = 0 := by omega
    subst h0
    simp at hr
    subst hr
    rfl
  ⟨⟨by decide, rfl, by decide, rfl, by decide, hmin⟩,
    shape_error_names_first_offending_row JNIEnv.fresh [[1, 2], [3]] [1, 2] [3] 1 (by decide)
      rfl (by decide) rfl (by decide) hmin,
    rfl⟩

/-- C9. Decoding a rectangular external matrix `M` of `R ≥ 1` rows of `C` elements (the claim
asks for `C ≥ 1`; the statement holds for `C = 0` as well), all rows present, in an environment
where no acquisition fails: `javaToEigenMatrix` returns a matrix
with `rows = R`, `cols = C` and a buffer of `R * C` coefficients, whose coefficient `(i, j)` is
the element `M[i][j]` itself, for every `i < R` and `j < C`; the pending exception of the
environment is left as it was. -/
theorem decode_preserves_elements [Zero α] (env : JNIEnv) (M : List (List α)) (R C : Nat)
    (henv : env.Reliable) (hR : 1 ≤ R) (hM : M.length = R)
    (hMC : ∀ r ∈ M, r.length = C) :
    ∃ m env1, javaToEigenMatrix env (present M) = (.ok m, env1) ∧
      env1.pending = env.pending ∧ m.rows = R ∧ m.cols = C ∧ m.WF ∧
      ∀ i j, i < R → j < C → entry M i j = some (m.coeff i j) := by
  obtain ⟨m, env1, hd, _, hpend1, hrows, hcols, hwf, hl⟩ := decode_rect env M C hMC henv
  rw [hM, if_neg (by omega)] at hcols
  rw [hM] at hrows
  refine ⟨m, env1, hd, hpend1, hrows, hcols, hwf, ?_⟩
  intro i j hi hj
  have h := entry_toLists m (i := i) (j := j) (by omega) (by omega)
  rw [hl] at h
  exact h

/-- C9, at a 2 by 3 matrix: the decoded matrix holds the six elements, column by column. -/
theorem decode_preserves_elements_witness :
    (JNIEnv.fresh.Reliable ∧ 1 ≤ 2 ∧
      ([[1, 2, 3], [4, 5, 6]] : List (List Int)).length = 2 ∧
      (∀ r ∈ ([[1, 2, 3], [4, 5, 6]] : List (List Int)), r.length = 3)) ∧
    (∃ m env1,
      javaToEigenMatrix JNIEnv.fresh (present ([[1, 2, 3], [4, 5, 6]] : List (List Int)))
        = (.ok m, env1) ∧
      env1.pending = JNIEnv.fresh.pending ∧ m.rows = 2 ∧ m.cols = 3 ∧ m.WF ∧
      ∀ i j, i < 2 → j < 3 →
        entry ([[1, 2, 3], [4, 5, 6]] : List (List Int)) i j = some (m.coeff i j)) ∧
    javaToEigenMatrix JNIEnv.fresh (present ([[1, 2, 3], [4, 5, 6]] : List (List Int)))
      = (.ok ⟨2, 3, [1, 4, 2, 5, 3, 6]⟩, JNIEnv.fresh) :=
  ⟨⟨by decide, by decide, rfl, by decide⟩,
    decode_preserves_elements JNIEnv.fresh [[1, 2, 3], [4, 5, 6]] 2 3 (by decide) (by decide)
      rfl (by decide),
    rfl⟩

/-- C10. Degenerate inputs. In every environment, `javaToEigenMatrix` returns the 0 by 0 matrix
for the external matrix without rows, and for an external matrix of `R ≥ 1` rows whose first row
is present and empty (whatever the other rows are) it returns the `R` by 0 matrix; in both cases
nothing is thrown and the environment, its pending exception included, is left untouched. -/
theorem decode_degenerate [Zero α] (env : JNIEnv) (rest : jobjectArray α) :
    javaToEigenMatrix env ([] : jobjectArray α) = (.ok ⟨0, 0, []⟩, env) ∧
    javaToEigenMatrix env (some [] :: rest) = (.ok ⟨rest.length + 1, 0, []⟩, env) := by
  constructor
  · rfl
  · simp [javaToEigenMatrix, MatrixXd.create]

/-- C11. Encoding when no acquisition fails. For every matrix `m`, `eigenToJavaMatrix` returns a
non-null outer array of exactly `m.rows` rows, every row present and of exactly `m.cols`
elements, element `j` of row `i` being the coefficient `m(i, j)`; the pending exception of the
environment is left as it was. For the 0 by 0 matrix the outer array is empty, and for an `R` by
0 matrix it consists of `R` empty rows. -/
theorem encode_shape_and_elements [Zero α] (env : JNIEnv) (m : MatrixXd α)
    (henv : env.Reliable) :
    ∃ res env1, eigenToJavaMatrix env m = (some (present res), env1) ∧
      env1.pending = env.pending ∧ res.length = m.rows ∧ (∀ r ∈ res, r.length = m.cols) ∧
      (∀ i j, i < m.rows → j < m.cols → entry res i j = some (m.coeff i j)) ∧
      (m.rows = 0 → res = []) ∧ (m.cols = 0 → res = List.replicate m.rows []) := by
  obtain ⟨env1, he, _, hp⟩ := encode_ok env m henv
  refine ⟨m.toLists, env1, he, hp, length_toLists m, fun r hr => length_of_mem_toLists m hr,
    fun i j hi hj => entry_toLists m hi hj, ?_, ?_⟩
  · intro h0
    simp [MatrixXd.toLists, h0]
  · intro h0
    apply List.ext_getElem
    · simp [MatrixXd.toLists]
    · intro n h1 h2
      simp [MatrixXd.toLists, h0]

/-- C11, at a 2 by 3 matrix, at the 0 by 0 matrix and at a 2 by 0 matrix. -/
theorem encode_shape_and_elements_witness :
    JNIEnv.fresh.Reliable ∧
    (∃ res env1,
      eigenToJavaMatrix JNIEnv.fresh (⟨2, 3, [1, 4, 2, 5, 3, 6]⟩ : MatrixXd Int)
        = (some (present res), env1) ∧
      env1.pending = JNIEnv.fresh.pending ∧ res.length = 2 ∧ (∀ r ∈ res, r.length = 3) ∧
      (∀ i j, i < 2 → j < 3 →
        entry res i j = some ((⟨2, 3, [1, 4, 2, 5, 3, 6]⟩ : MatrixXd Int).coeff i j)) ∧
      ((2 : Nat) = 0 → res = []) ∧ ((3 : Nat) = 0 → res = List.replicate 2 [])) ∧
    eigenToJavaMatrix JNIEnv.fresh (⟨2, 3, [1, 4, 2, 5, 3, 6]⟩ : MatrixXd Int)
      = (some (present [[1, 2, 3], [4, 5, 6]]), JNIEnv.fresh) ∧
    eigenToJavaMatrix JNIEnv.fresh (⟨0, 0, []⟩ : MatrixXd Int)
      = (some [], JNIEnv.fresh) ∧
    eigenToJavaMatrix JNIEnv.fresh (⟨2, 0, []⟩ : MatrixXd Int)
      = (some [some [], some []], JNIEnv.fresh) :=
  ⟨by decide,
    encode_shape_and_elements JNIEnv.fresh ⟨2, 3, [1, 4, 2, 5, 3, 6]⟩ (by decide),
    by decide, by decide, by decide⟩

/-- C12. Commutativity of `addMatrices`, for scalars whose addition is commutative (as that of
`double` is). Let the two operands decode, one after the other, to matrices `a` and `b` with no
exception pending afterwards, in an environment where no acquisition fails. Then
`addMatrices(A, B)` and `addMatrices(B, A)` have the same outcome: either both return `null`
with the dimension mismatch error pending, or both return the very same array with no
exception pending. -/
theorem addMatrices_commutative [Zero α] [Add α] (hcomm : ∀ x y : α, x + y = y + x)
    (env env1 env2 : JNIEnv) (A B : jobjectArray α) (a b : MatrixXd α) (henv : env.Reliable)
    (hA : javaToEigenMatrix env A = (.ok a, env1))
    (hB : javaToEigenMatrix env1 B = (.ok b, env2))
    (hpend : env2.pending = none) :
    ((Java_com_example_matrixcalculator_MatrixCalculatorBridge_addMatrices env A B).1 = none ∧
      (Java_com_example_matrixcalculator_MatrixCalculatorBridge_addMatrices env A B).2.pending
        = some ⟨"java/lang/RuntimeException", dimensionsMustMatch "addition" a b⟩ ∧
      (Java_com_example_matrixcalculator_MatrixCalculatorBridge_addMatrices env B A).1 = none ∧
      (Java_com_example_matrixcalculator_MatrixCalculatorBridge_addMatrices env B A).2.pending
        = some ⟨"java/lang/RuntimeException", dimensionsMustMatch "addition" b a⟩) ∨
    (∃ res,
      (Java_com_example_matrixcalculator_MatrixCalculatorBridge_addMatrices env A B).1
        = some res ∧
      (Java_com_example_matrixcalculator_MatrixCalculatorBridge_addMatrices env B A).1
        = some res ∧
      (Java_com_example_matrixcalculator_MatrixCalculatorBridge_addMatrices env A B).2.pending
        = none ∧
      (Java_com_example_matrixcalculator_MatrixCalculatorBridge_addMatrices env B A).2.pending
        = none) := by
  have hrel1 : env1.Reliable := by
    have h := decode_reliable env A henv
    rw [hA] at h; exact h
  have hrel2 : env2.Reliable := by
    have h := decode_reliable env1 B hrel1
    rw [hB] at h; exact h
  obtain ⟨hp1, hBany⟩ := decode_transfer hrel1 hB hpend
  obtain ⟨hp0, hAany⟩ := decode_transfer henv hA hp1
  obtain ⟨envB, hB2, hrelB, hpB⟩ := hBany env henv hp0
  obtain ⟨envBA, hA2, hrelBA, hpBA⟩ := hAany envB hrelB hpB
  by_cases hdim : a.rows ≠ b.rows ∨ a.cols ≠ b.cols
  · have hdim2 : b.rows ≠ a.rows ∨ b.cols ≠ a.cols :=
      hdim.imp (fun h e => h e.symm) (fun h e => h e.symm)
    obtain ⟨envE, hcE, _, hpE⟩ :=
      catchStdException_of_reliable α hrel2 (dimensionsMustMatch "addition" a b)
    obtain ⟨envF, hcF, _, hpF⟩ :=
      catchStdException_of_reliable α hrelBA (dimensionsMustMatch "addition" b a)
    left
    simp only [Java_com_example_matrixcalculator_MatrixCalculatorBridge_addMatrices, hA, hB,
      hA2, hB2]
    rw [if_pos hdim, if_pos hdim2, hcE, hcF]
    exact ⟨rfl, hpE, rfl, hpF⟩
  · have hdim2 : ¬ (b.rows ≠ a.rows ∨ b.cols ≠ a.cols) :=
      fun h => hdim (h.imp (fun h e => h e.symm) (fun h e => h e.symm))
    have hrc : a.rows = b.rows ∧ a.cols = b.cols := by
      constructor
      · by_contra h; exact hdim (Or.inl h)
      · by_contra h; exact hdim (Or.inr h)
    have hsame : b.add a = a.add b := by
      simp only [MatrixXd.add, hrc.1, hrc.2]
      rw [List.zipWith_comm_of_comm _ hcomm]
    obtain ⟨envS, heS, _, hpS⟩ := encode_ok env2 (a.add b) hrel2
    obtain ⟨envT, heT, _, hpT⟩ := encode_ok envBA (a.add b) hrelBA
    right
    refine ⟨present (a.add b).toLists, ?_⟩
    simp only [Java_com_example_matrixcalculator_MatrixCalculatorBridge_addMatrices, hA, hB,
      hA2, hB2]
    rw [if_neg hdim, if_neg hdim2, hsame, heS, heT]
    exact ⟨rfl, rfl, hpS.trans hpend, hpT.trans hpBA⟩

/-- C12, at a pair of 2 by 2 matrices (both orders give `[[6,8],[10,12]]`) and at a pair of
different shapes (both orders fail). -/
theorem addMatrices_commutative_witness :
    ((∀ x y : Int, x + y = y + x) ∧ JNIEnv.fresh.Reliable ∧
      javaToEigenMatrix JNIEnv.fresh (present ([[1, 2], [3, 4]] : List (List Int)))
        = (.ok ⟨2, 2, [1, 3, 2, 4]⟩, JNIEnv.fresh) ∧
      javaToEigenMatrix JNIEnv.fresh (present ([[5, 6], [7, 8]] : List (List Int)))
        = (.ok ⟨2, 2, [5, 7, 6, 8]⟩, JNIEnv.fresh) ∧
      JNIEnv.fresh.pending = none) ∧
    (((Java_com_example_matrixcalculator_MatrixCalculatorBridge_addMatrices JNIEnv.fresh
          (present ([[1, 2], [3, 4]] : List (List Int))) (present [[5, 6], [7, 8]])).1 = none ∧
      (Java_com_example_matrixcalculator_MatrixCalculatorBridge_addMatrices JNIEnv.fresh
          (present ([[1, 2], [3, 4]] : List (List Int))) (present [[5, 6], [7, 8]])).2.pending
        = some ⟨"java/lang/RuntimeException",
            dimensionsMustMatch "addition" (⟨2, 2, [1, 3, 2, 4]⟩ : MatrixXd Int)
              (⟨2, 2, [5, 7, 6, 8]⟩ : MatrixXd Int)⟩ ∧
      (Java_com_example_matrixcalculator_MatrixCalculatorBridge_addMatrices JNIEnv.fresh
          (present ([[5, 6], [7, 8]] : List (List Int))) (present [[1, 2], [3, 4]])).1 = none ∧
      (Java_com_example_matrixcalculator_MatrixCalculatorBridge_addMatrices JNIEnv.fresh
          (present ([[5, 6], [7, 8]] : List (List Int))) (present [[1, 2], [3, 4]])).2.pending
        = some ⟨"java/lang/RuntimeException",
            dimensionsMustMatch "addition" (⟨2, 2, [5, 7, 6, 8]⟩ : MatrixXd Int)
              (⟨2, 2, [1, 3, 2, 4]⟩ : MatrixXd Int)⟩) ∨
    (∃ res,
      (Java_com_example_matrixcalculator_MatrixCalculatorBridge_addMatrices JNIEnv.fresh
          (present ([[1, 2], [3, 4]] : List (List Int))) (present [[5, 6], [7, 8]])).1
        = some res ∧
      (Java_com_example_matrixcalculator_MatrixCalculatorBridge_addMatrices JNIEnv.fresh
          (present ([[5, 6], [7, 8]] : List (List Int))) (present [[1, 2], [3, 4]])).1
        = some res ∧
      (Java_com_example_matrixcalculator_MatrixCalculatorBridge_addMatrices JNIEnv.fresh
          (present ([[1, 2], [3, 4]] : List (List Int))) (present [[5, 6], [7, 8]])).2.pending
        = none ∧
      (Java_com_example_matrixcalculator_MatrixCalculatorBridge_addMatrices JNIEnv.fresh
          (present ([[5, 6], [7, 8]] : List (List Int))) (present [[1, 2], [3, 4]])).2.pending
        = none)) ∧
    (Java_com_example_matrixcalculator_MatrixCalculatorBridge_addMatrices JNIEnv.fresh
        (present ([[5, 6], [7, 8]] : List (List Int))) (present [[1, 2], [3, 4]])
      = (some (present [[6, 8], [10, 12]]), JNIEnv.fresh)) ∧
    (Java_com_example_matrixcalculator_MatrixCalculatorBridge_addMatrices JNIEnv.fresh
        (present ([[1, 2, 3]] : List (List Int))) (present [[1, 2]])
      = (none, ⟨some ⟨"java/lang/RuntimeException",
          "Matrix dimensions must match for addition (1x3 vs 1x2)"⟩, []⟩)) :=
  ⟨⟨Int.add_comm, by decide, rfl, rfl, rfl⟩,
    addMatrices_commutative Int.add_comm JNIEnv.fresh JNIEnv.fresh JNIEnv.fresh
      (present [[1, 2], [3, 4]]) (present [[5, 6], [7, 8]]) ⟨2, 2, [1, 3, 2, 4]⟩
      ⟨2, 2, [5, 7, 6, 8]⟩ (by decide) rfl rfl rfl,
    by decide, by decide⟩

/-- C13, as stated, fails for `double` scalars. With `A = [[1]]` and `B = [[2^55]]`, both
exactly representable, `subtractMatrices(A, B)` returns `D = [[-2^55]]` (the exact difference
`1 - 2^55` needs 55 significant bits and is rounded), and `addMatrices(D, B)` returns `[[0]]`,
which is not `A`. -/
theorem subtract_then_add_loses_small_operand :
    roundToDouble 1 = 1 ∧ roundToDouble 36028797018963968 = 36028797018963968 ∧
    (36028797018963968 : Int) = 2 ^ 55 ∧
    Java_com_example_matrixcalculator_MatrixCalculatorBridge_subtractMatrices JNIEnv.fresh
        (present [[(⟨1⟩ : IntegralDouble)]]) (present [[⟨36028797018963968⟩]])
      = (some (present [[⟨-36028797018963968⟩]]), JNIEnv.fresh) ∧
    Java_com_example_matrixcalculator_MatrixCalculatorBridge_addMatrices JNIEnv.fresh
        (present [[(⟨-36028797018963968⟩ : IntegralDouble)]]) (present [[⟨36028797018963968⟩]])
      = (some (present [[⟨0⟩]]), JNIEnv.fresh) ∧
    present [[(⟨0⟩ : IntegralDouble)]] ≠ present [[⟨1⟩]] :=
  ⟨by decide, by decide, by decide, by decide, by decide, by decide⟩

/-- C13, amended. For rectangular external matrices `A` and `B` of the same shape `R` by `C`, in
an environment with nothing pending and no failing acquisition, `subtractMatrices(A, B)` returns
some `D`, and `addMatrices(D, B)`, called next, returns a matrix of `R` rows of `C` elements
whose element `(i, j)` is `(A[i][j] - B[i][j]) + B[i][j]` in the arithmetic of the scalars; no
exception is pending after either call. The result is `A` itself whenever that arithmetic
satisfies `(x - y) + y = x`, as exact arithmetic does. -/
theorem subtract_then_add [Zero α] [Add α] [Sub α] (env : JNIEnv) (A B : List (List α))
    (R C : Nat) (hpend : env.pending = none) (henv : env.Reliable)
    (hA : A.length = R) (hB : B.length = R)
    (hAC : ∀ r ∈ A, r.length = C) (hBC : ∀ r ∈ B, r.length = C) :
    ∃ D res env1 env2,
      Java_com_example_matrixcalculator_MatrixCalculatorBridge_subtractMatrices env
        (present A) (present B) = (some (present D), env1) ∧ env1.pending = none ∧
      Java_com_example_matrixcalculator_MatrixCalculatorBridge_addMatrices env1
        (present D) (present B) = (some (present res), env2) ∧ env2.pending = none ∧
      res.length = R ∧ (∀ r ∈ res, r.length = C) ∧
      (∀ i j, i < R → j < C →
        ∃ x y, entry A i j = some x ∧ entry B i j = some y ∧
          entry res i j = some (x - y + y)) ∧
      ((∀ x y : α, x - y + y = x) → res = A) := by
  obtain ⟨D, env1, hsub, hrel1, hp1, hDlen, hDC, hD⟩ := sub_rect env A B R C henv hA hB hAC hBC
  obtain ⟨res, env2, hadd, _, hp2, hRlen, hRC, hR⟩ :=
    add_rect env1 D B R C hrel1 hDlen hB hDC hBC
  have hentry : ∀ i j, i < R → j < C →
      ∃ x y, entry A i j = some x ∧ entry B i j = some y ∧
        entry res i j = some (x - y + y) := by
    intro i j hi hj
    obtain ⟨x, y, hx, hy, hd⟩ := hD i j hi hj
    obtain ⟨d, y2, hd2, hy2, hr⟩ := hR i j hi hj
    rw [hd] at hd2
    rw [hy] at hy2
    simp only [Option.some.injEq] at hd2 hy2
    subst hd2 hy2
    exact ⟨x, y, hx, hy, hr⟩
  refine ⟨D, res, env1, env2, hsub, hp1.trans hpend, hadd, (hp2.trans hp1).trans hpend, hRlen,
    hRC, hentry, ?_⟩
  intro hexact
  apply eq_of_entry hRlen hA hRC hAC
  intro i j hi hj
  obtain ⟨x, y, hx, hy, hr⟩ := hentry i j hi hj
  rw [hr, hx, hexact]

/-- C13 amended, at `A = [[5,6],[7,8]]` and `B = [[1,2],[3,5]]` over the integers, where the
arithmetic is exact and `A` is recovered. -/
theorem subtract_then_add_witness :
    (JNIEnv.fresh.pending = none ∧ JNIEnv.fresh.Reliable ∧
      ([[5, 6], [7, 8]] : List (List Int)).length = 2 ∧
      ([[1, 2], [3, 5]] : List (List Int)).length = 2 ∧
      (∀ r ∈ ([[5, 6], [7, 8]] : List (List Int)), r.length = 2) ∧
      (∀ r ∈ ([[1, 2], [3, 5]] : List (List Int)), r.length = 2)) ∧
    (∃ D res env1 env2,
      Java_com_example_matrixcalculator_MatrixCalculatorBridge_subtractMatrices JNIEnv.fresh
        (present ([[5, 6], [7, 8]] : List (List Int))) (present [[1, 2], [3, 5]])
        = (some (present D), env1) ∧ env1.pending = none ∧
      Java_com_example_matrixcalculator_MatrixCalculatorBridge_addMatrices env1
        (present D) (present [[1, 2], [3, 5]]) = (some (present res), env2) ∧
      env2.pending = none ∧
      res.length = 2 ∧ (∀ r ∈ res, r.length = 2) ∧
      (∀ i j, i < 2 → j < 2 →
        ∃ x y, entry ([[5, 6], [7, 8]] : List (List Int)) i j = some x ∧
          entry ([[1, 2], [3, 5]] : List (List Int)) i j = some y ∧
          entry res i j = some (x - y + y)) ∧
      ((∀ x y : Int, x - y + y = x) → res = [[5, 6], [7, 8]])) ∧
    Java_com_example_matrixcalculator_MatrixCalculatorBridge_addMatrices JNIEnv.fresh
        (present ([[4, 4], [4, 3]] : List (List Int))) (present [[1, 2], [3, 5]])
      = (some (present [[5, 6], [7, 8]]), JNIEnv.fresh) :=
  ⟨⟨rfl, by decide, rfl, rfl, by decide, by decide⟩,
    subtract_then_add JNIEnv.fresh [[5, 6], [7, 8]] [[1, 2], [3, 5]] 2 2 rfl (by decide) rfl rfl
      (by decide) (by decide),
    by decide⟩

/-- C14. For every `R` and `C`, an `R` by 0 matrix `a` and a 0 by `C` matrix `b`, the operands
of the dimension check and of the product in `multiplyMatrices`, pass the dimension check
(`a.cols = b.rows`), their product is the `R` by `C` matrix all of whose coefficients are zero,
the empty sum, and it is encoded without error, when no acquisition fails, as `R` rows of `C`
zeros. In addition, for the external operands that decode to this case with `C = 0`, `R` empty
rows and the matrix without rows, `multiplyMatrices` returns `R` empty rows and raises no
error. -/
theorem multiply_empty_inner_dimension [Zero α] [Add α] [Mul α] (env : JNIEnv)
    (a b : MatrixXd α) (R C : Nat) (henv : env.Reliable)
    (har : a.rows = R) (hac : a.cols = 0) (hbr : b.rows = 0) (hbc : b.cols = C) :
    ¬ (a.cols ≠ b.rows) ∧
    a.mul b = ⟨R, C, List.replicate (R * C) 0⟩ ∧
    (∃ env1, eigenToJavaMatrix env (a.mul b)
        = (some (present (List.replicate R (List.replicate C 0))), env1) ∧
      env1.pending = env.pending) ∧
    (∃ env2,
      Java_com_example_matrixcalculator_MatrixCalculatorBridge_multiplyMatrices env
          (present (List.replicate R ([] : List α))) (present [])
        = (some (present (List.replicate R [])), env2) ∧
      env2.pending = env.pending) := by
  have hmul : a.mul b = ⟨R, C, List.replicate (R * C) 0⟩ := by
    rw [mul_of_inner_zero a b hac, har, hbc]
  refine ⟨by rw [hac, hbr]; simp, hmul, ?_, ?_⟩
  · obtain ⟨env1, he, _, hp⟩ := encode_ok env (a.mul b) henv
    refine ⟨env1, ?_, hp⟩
    rw [he, hmul, toLists_zero]
  · obtain ⟨x, env1, hdx, hrel1, hp1, hxr, hxc, _, _⟩ :=
      decode_rect env (List.replicate R ([] : List α)) 0
        (fun r hr => by rw [List.eq_of_mem_replicate hr]; rfl) henv
    obtain ⟨y, env2, hdy, hrel2, hp2, hyr, hyc, _, _⟩ :=
      decode_rect env1 ([] : List (List α)) 0 (fun r hr => by simp at hr) hrel1
    obtain ⟨env3, he, _, hp3⟩ := encode_ok env2 (x.mul y) hrel2
    have hxc0 : x.cols = 0 := by rw [hxc]; split <;> rfl
    have hyr0 : y.rows = 0 := by simpa using hyr
    have hyc0 : y.cols = 0 := by simpa using hyc
    have hxr0 : x.rows = R := by simpa using hxr
    refine ⟨env3, ?_, (hp3.trans hp2).trans hp1⟩
    simp only [Java_com_example_matrixcalculator_MatrixCalculatorBridge_multiplyMatrices, hdx,
      hdy]
    rw [if_neg (by rw [hxc0, hyr0]; simp), he]
    have hcols : (x.mul y).cols = 0 := hyc0
    have hrows : (x.mul y).rows = R := hxr0
    rw [toLists_of_cols_zero _ hcols, hrows]

/-- C14, at the example of the claim: a 2 by 0 matrix times a 0 by 3 matrix yields a 2 by 3
matrix of zeros. -/
theorem multiply_empty_inner_dimension_witness :
    (JNIEnv.fresh.Reliable ∧ (⟨2, 0, []⟩ : MatrixXd Int).rows = 2 ∧
      (⟨2, 0, []⟩ : MatrixXd Int).cols = 0 ∧ (⟨0, 3, []⟩ : MatrixXd Int).rows = 0 ∧
      (⟨0, 3, []⟩ : MatrixXd Int).cols = 3) ∧
    (¬ ((⟨2, 0, []⟩ : MatrixXd Int).cols ≠ (⟨0, 3, []⟩ : MatrixXd Int).rows) ∧
      (⟨2, 0, []⟩ : MatrixXd Int).mul ⟨0, 3, []⟩ = ⟨2, 3, List.replicate (2 * 3) 0⟩ ∧
      (∃ env1, eigenToJavaMatrix JNIEnv.fresh ((⟨2, 0, []⟩ : MatrixXd Int).mul ⟨0, 3, []⟩)
          = (some (present (List.replicate 2 (List.replicate 3 0))), env1) ∧
        env1.pending = JNIEnv.fresh.pending) ∧
      (∃ env2,
        Java_com_example_matrixcalculator_MatrixCalculatorBridge_multiplyMatrices JNIEnv.fresh
            (present (List.replicate 2 ([] : List Int))) (present [])
          = (some (present (List.replicate 2 [])), env2) ∧
        env2.pending = JNIEnv.fresh.pending)) ∧
    eigenToJavaMatrix JNIEnv.fresh ((⟨2, 0, []⟩ : MatrixXd Int).mul ⟨0, 3, []⟩)
      = (some (present [[0, 0, 0], [0, 0, 0]]), JNIEnv.fresh) :=
  ⟨⟨by decide, rfl, rfl, rfl, rfl⟩,
    multiply_empty_inner_dimension JNIEnv.fresh ⟨2, 0, []⟩ ⟨0, 3, []⟩ 2 3 (by decide) rfl rfl
      rfl rfl,
    by decide⟩

/-- C15. The code at inputs with an absent row. Decoding `[null]` makes a
`NullPointerException` pending and returns a 0 by 0 matrix in place of the operand; the entry
points do not look at the pending exception and go on. With the matrix without rows as second
operand the dimension check passes, and each of the three entry points returns a result (the
empty array) together with the pending exception. The same happens when the absent row is not
the first one. -/
theorem operations_continue_after_absent_row :
    javaToEigenMatrix JNIEnv.fresh ([none] : jobjectArray Int)
      = (.ok ⟨0, 0, []⟩,
          ⟨some ⟨"java/lang/NullPointerException", "First row of Java matrix is null"⟩, []⟩) ∧
    Java_com_example_matrixcalculator_MatrixCalculatorBridge_addMatrices JNIEnv.fresh
        ([none] : jobjectArray Int) []
      = (some [],
          ⟨some ⟨"java/lang/NullPointerException", "First row of Java matrix is null"⟩, []⟩) ∧
    Java_com_example_matrixcalculator_MatrixCalculatorBridge_subtractMatrices JNIEnv.fresh
        ([none] : jobjectArray Int) []
      = (some [],
          ⟨some ⟨"java/lang/NullPointerException", "First row of Java matrix is null"⟩, []⟩) ∧
    Java_com_example_matrixcalculator_MatrixCalculatorBridge_multiplyMatrices JNIEnv.fresh
        ([none] : jobjectArray Int) []
      = (some [],
          ⟨some ⟨"java/lang/NullPointerException", "First row of Java matrix is null"⟩, []⟩) ∧
    Java_com_example_matrixcalculator_MatrixCalculatorBridge_addMatrices JNIEnv.fresh
        ([some [1], none] : jobjectArray Int) []
      = (some [],
          ⟨some ⟨"java/lang/NullPointerException", "Row 1 of Java matrix is null"⟩, []⟩) :=
  ⟨rfl, by decide, by decide, by decide, by decide⟩

/-- C16. The code when the allocation of a row fails. Encoding a 2 by 1 matrix in an
environment where the class lookup, the outer array and the first row are obtained and the
second row is not: `eigenToJavaMatrix` returns the outer array with its first row filled and
its second row missing, with the `OutOfMemoryError` of the failed allocation pending. When the
outer array is the allocation that fails, it returns `null`. -/
theorem encode_returns_truncated_array :
    eigenToJavaMatrix ⟨none, [true, true, true, false]⟩ (⟨2, 1, [5, 6]⟩ : MatrixXd Int)
      = (some [some [5], none],
          ⟨some ⟨"java/lang/OutOfMemoryError", "NewDoubleArray"⟩, []⟩) ∧
    eigenToJavaMatrix ⟨none, [true, false]⟩ (⟨2, 1, [5, 6]⟩ : MatrixXd Int)
      = (none, ⟨some ⟨"java/lang/OutOfMemoryError", "NewObjectArray"⟩, []⟩) :=
  ⟨by decide, by decide⟩

/-- C17. Propagation of shape errors, in an environment where no acquisition fails, for all
external matrices `A` and `B`. If decoding `A` throws the error `e`, then whatever `B` is each of
the three entry points returns `null` with a `RuntimeException` carrying `e` pending. If `A`
decodes and decoding `B` throws `e`, the same holds with the error of `B`. In both cases `e` is
the error of the row length check and differs from every message of a dimension check, so a
dimension mismatch is reported only when both operands were decoded; and nothing is returned
on these failures. -/
theorem shape_error_propagates [Zero α] [Add α] [Sub α] [Mul α] (env : JNIEnv)
    (A B : jobjectArray α) (henv : env.Reliable) :
    (∀ e env1, javaToEigenMatrix env A = (.error e, env1) →
      (∃ n : Nat, e = "Inconsistent column count in matrix at row " ++ toString n) ∧
      (∀ operation (x y : MatrixXd α),
        e ≠ dimensionsMustMatch operation x y ∧ e ≠ dimensionsIncompatible x y) ∧
      (Java_com_example_matrixcalculator_MatrixCalculatorBridge_addMatrices env A B).1 = none ∧
      (Java_com_example_matrixcalculator_MatrixCalculatorBridge_addMatrices env A B).2.pending
        = some ⟨"java/lang/RuntimeException", e⟩ ∧
      (Java_com_example_matrixcalculator_MatrixCalculatorBridge_subtractMatrices env A B).1
        = none ∧
      (Java_com_example_matrixcalculator_MatrixCalculatorBridge_subtractMatrices
          env A B).2.pending
        = some ⟨"java/lang/RuntimeException", e⟩ ∧
      (Java_com_example_matrixcalculator_MatrixCalculatorBridge_multiplyMatrices env A B).1
        = none ∧
      (Java_com_example_matrixcalculator_MatrixCalculatorBridge_multiplyMatrices
          env A B).2.pending
        = some ⟨"java/lang/RuntimeException", e⟩) ∧
    (∀ a e env1 env2, javaToEigenMatrix env A = (.ok a, env1) →
      javaToEigenMatrix env1 B = (.error e, env2) →
      (∃ n : Nat, e = "Inconsistent column count in matrix at row " ++ toString n) ∧
      (∀ operation (x y : MatrixXd α),
        e ≠ dimensionsMustMatch operation x y ∧ e ≠ dimensionsIncompatible x y) ∧
      (Java_com_example_matrixcalculator_MatrixCalculatorBridge_addMatrices env A B).1 = none ∧
      (Java_com_example_matrixcalculator_MatrixCalculatorBridge_addMatrices env A B).2.pending
        = some ⟨"java/lang/RuntimeException", e⟩ ∧
      (Java_com_example_matrixcalculator_MatrixCalculatorBridge_subtractMatrices env A B).1
        = none ∧
      (Java_com_example_matrixcalculator_MatrixCalculatorBridge_subtractMatrices
          env A B).2.pending
        = some ⟨"java/lang/RuntimeException", e⟩ ∧
      (Java_com_example_matrixcalculator_MatrixCalculatorBridge_multiplyMatrices env A B).1
        = none ∧
      (Java_com_example_matrixcalculator_MatrixCalculatorBridge_multiplyMatrices
          env A B).2.pending
        = some ⟨"java/lang/RuntimeException", e⟩) := by
  constructor
  · intro e env1 hA
    have hrel1 : env1.Reliable := by
      have h := decode_reliable env A henv
      rw [hA] at h; exact h
    obtain ⟨n, hn⟩ := decode_error_form env env1 A e hA
    obtain ⟨envE, hc, _, hp⟩ := catchStdException_of_reliable α hrel1 e
    refine ⟨⟨n, hn⟩, fun operation x y => ?_, ?_⟩
    · rw [hn]
      exact ⟨shape_error_ne_mismatch n operation x y, shape_error_ne_incompatible n x y⟩
    · simp only [Java_com_example_matrixcalculator_MatrixCalculatorBridge_addMatrices,
        Java_com_example_matrixcalculator_MatrixCalculatorBridge_subtractMatrices,
        Java_com_example_matrixcalculator_MatrixCalculatorBridge_multiplyMatrices, hA, hc]
      exact ⟨trivial, hp, trivial, hp, trivial, hp⟩
  · intro a e env1 env2 hA hB
    have hrel1 : env1.Reliable := by
      have h := decode_reliable env A henv
      rw [hA] at h; exact h
    have hrel2 : env2.Reliable := by
      have h := decode_reliable env1 B hrel1
      rw [hB] at h; exact h
    obtain ⟨n, hn⟩ := decode_error_form env1 env2 B e hB
    obtain ⟨envE, hc, _, hp⟩ := catchStdException_of_reliable α hrel2 e
    refine ⟨⟨n, hn⟩, fun operation x y => ?_, ?_⟩
    · rw [hn]
      exact ⟨shape_error_ne_mismatch n operation x y, shape_error_ne_incompatible n x y⟩
    · simp only [Java_com_example_matrixcalculator_MatrixCalculatorBridge_addMatrices,
        Java_com_example_matrixcalculator_MatrixCalculatorBridge_subtractMatrices,
        Java_com_example_matrixcalculator_MatrixCalculatorBridge_multiplyMatrices, hA, hB, hc]
      exact ⟨trivial, hp, trivial, hp, trivial, hp⟩

/-- C17, at `A = [[1,2],[3]]`, whose decoding throws, and `B = [[9]]`; the two concrete
evaluations show the error of `A` reported by `addMatrices(A, B)` and, with the operands
exchanged, the error of the second operand reported by `multiplyMatrices(B, A)`. -/
theorem shape_error_propagates_witness :
    JNIEnv.fresh.Reliable ∧
    ((∀ e env1, javaToEigenMatrix JNIEnv.fresh (present ([[1, 2], [3]] : List (List Int))) = (.error e, env1) →
      (∃ n : Nat, e = "Inconsistent column count in matrix at row " ++ toString n) ∧
      (∀ operation (x y : MatrixXd Int),
        e ≠ dimensionsMustMatch operation x y ∧ e ≠ dimensionsIncompatible x y) ∧
      (Java_com_example_matrixcalculator_MatrixCalculatorBridge_addMatrices
          JNIEnv.fresh (present ([[1, 2], [3]] : List (List Int))) (present ([[9]] : List (List Int)))).1 = none ∧
      (Java_com_example_matrixcalculator_MatrixCalculatorBridge_addMatrices
          JNIEnv.fresh (present ([[1, 2], [3]] : List (List Int))) (present ([[9]] : List (List Int)))).2.pending
        = some ⟨"java/lang/RuntimeException", e⟩ ∧
      (Java_com_example_matrixcalculator_MatrixCalculatorBridge_subtractMatrices
          JNIEnv.fresh (present ([[1, 2], [3]] : List (List Int))) (present ([[9]] : List (List Int)))).1 = none ∧
      (Java_com_example_matrixcalculator_MatrixCalculatorBridge_subtractMatrices
          JNIEnv.fresh (present ([[1, 2], [3]] : List (List Int))) (present ([[9]] : List (List Int)))).2.pending
        = some ⟨"java/lang/RuntimeException", e⟩ ∧
      (Java_com_example_matrixcalculator_MatrixCalculatorBridge_multiplyMatrices
          JNIEnv.fresh (present ([[1, 2], [3]] : List (List Int))) (present ([[9]] : List (List Int)))).1 = none ∧
      (Java_com_example_matrixcalculator_MatrixCalculatorBridge_multiplyMatrices
          JNIEnv.fresh (present ([[1, 2], [3]] : List (List Int))) (present ([[9]] : List (List Int)))).2.pending
        = some ⟨"java/lang/RuntimeException", e⟩) ∧
    (∀ a e env1 env2, javaToEigenMatrix JNIEnv.fresh (present ([[1, 2], [3]] : List (List Int))) = (.ok a, env1) →
      javaToEigenMatrix env1 (present ([[9]] : List (List Int))) = (.error e, env2) →
      (∃ n : Nat, e = "Inconsistent column count in matrix at row " ++ toString n) ∧
      (∀ operation (x y : MatrixXd Int),
        e ≠ dimensionsMustMatch operation x y ∧ e ≠ dimensionsIncompatible x y) ∧
      (Java_com_example_matrixcalculator_MatrixCalculatorBridge_addMatrices
          JNIEnv.fresh (present ([[1, 2], [3]] : List (List Int))) (present ([[9]] : List (List Int)))).1 = none ∧
      (Java_com_example_matrixcalculator_MatrixCalculatorBridge_addMatrices
          JNIEnv.fresh (present ([[1, 2], [3]] : List (List Int))) (present ([[9]] : List (List Int)))).2.pending
        = some ⟨"java/lang/RuntimeException", e⟩ ∧
      (Java_com_example_matrixcalculator_MatrixCalculatorBridge_subtractMatrices
          JNIEnv.fresh (present ([[1, 2], [3]] : List (List Int))) (present ([[9]] : List (List Int)))).1 = none ∧
      (Java_com_example_matrixcalculator_MatrixCalculatorBridge_subtractMatrices
          JNIEnv.fresh (present ([[1, 2], [3]] : List (List Int))) (present ([[9]] : List (List Int)))).2.pending
        = some ⟨"java/lang/RuntimeException", e⟩ ∧
      (Java_com_example_matrixcalculator_MatrixCalculatorBridge_multiplyMatrices
          JNIEnv.fresh (present ([[1, 2], [3]] : List (List Int))) (present ([[9]] : List (List Int)))).1 = none ∧
      (Java_com_example_matrixcalculator_MatrixCalculatorBridge_multiplyMatrices
          JNIEnv.fresh (present ([[1, 2], [3]] : List (List Int))) (present ([[9]] : List (List Int)))).2.pending
        = some ⟨"java/lang/RuntimeException", e⟩)) ∧
    Java_com_example_matrixcalculator_MatrixCalculatorBridge_addMatrices JNIEnv.fresh
        (present ([[1, 2], [3]] : List (List Int))) (present ([[9]] : List (List Int)))
      = (none, ⟨some ⟨"java/lang/RuntimeException",
          "Inconsistent column count in matrix at row 1"⟩, []⟩) ∧
    Java_com_example_matrixcalculator_MatrixCalculatorBridge_multiplyMatrices JNIEnv.fresh
        (present ([[9]] : List (List Int))) (present ([[1, 2], [3]] : List (List Int)))
      = (none, ⟨some ⟨"java/lang/RuntimeException",
          "Inconsistent column count in matrix at row 1"⟩, []⟩) :=
  ⟨by decide,
    shape_error_propagates JNIEnv.fresh (present ([[1, 2], [3]] : List (List Int)))
      (present ([[9]] : List (List Int))) (by decide),
    by decide, by decide⟩

set_option maxRecDepth 10000 in
/-- C18, as stated, fails for `multiplyMatrices`. For a 3 by 1 first operand and a 2 by 4 second
operand the error is "... (A.cols 1 != B.rows 2)": neither `a.rows = 3` nor `b.cols = 4` occurs
in it, and a 1 by 1 first operand gives the very same error. -/
theorem multiply_message_omits_outer_dimensions :
    javaToEigenMatrix JNIEnv.fresh (present ([[1], [1], [1]] : List (List Int)))
      = (.ok ⟨3, 1, [1, 1, 1]⟩, JNIEnv.fresh) ∧
    javaToEigenMatrix JNIEnv.fresh (present ([[1, 1, 1, 1], [1, 1, 1, 1]] : List (List Int)))
      = (.ok ⟨2, 4, [1, 1, 1, 1, 1, 1, 1, 1]⟩, JNIEnv.fresh) ∧
    Java_com_example_matrixcalculator_MatrixCalculatorBridge_multiplyMatrices JNIEnv.fresh
        (present ([[1], [1], [1]] : List (List Int)))
        (present ([[1, 1, 1, 1], [1, 1, 1, 1]] : List (List Int)))
      = (none, ⟨some ⟨"java/lang/RuntimeException",
          "Matrix dimensions incompatible for multiplication (A.cols 1 != B.rows 2)"⟩, []⟩) ∧
    ¬ occursIn (toString 3)
        "Matrix dimensions incompatible for multiplication (A.cols 1 != B.rows 2)" ∧
    ¬ occursIn (toString 4)
        "Matrix dimensions incompatible for multiplication (A.cols 1 != B.rows 2)" ∧
    Java_com_example_matrixcalculator_MatrixCalculatorBridge_multiplyMatrices JNIEnv.fresh
        (present ([[1]] : List (List Int)))
        (present ([[1, 1, 1, 1], [1, 1, 1, 1]] : List (List Int)))
      = Java_com_example_matrixcalculator_MatrixCalculatorBridge_multiplyMatrices JNIEnv.fresh
        (present ([[1], [1], [1]] : List (List Int)))
        (present ([[1, 1, 1, 1], [1, 1, 1, 1]] : List (List Int))) :=
  ⟨rfl, rfl, by decide, by decide, by decide, by decide⟩

/-- C18, amended. Let the two operands decode, one after the other, to matrices `a` and `b`, in
an environment where no acquisition fails. When the shapes differ, the error of `addMatrices`
and of `subtractMatrices` is the message that names the operation and spells out both shapes,
`a.rows`, `a.cols`, `b.rows` and `b.cols`. When `a.cols ≠ b.rows`, the error of
`multiplyMatrices` names the operation and spells out the two dimensions that are compared,
`a.cols` and `b.rows`, and nothing else of the shapes. -/
theorem dimension_mismatch_message [Zero α] [Add α] [Sub α] [Mul α] (env env1 env2 : JNIEnv)
    (A B : jobjectArray α) (a b : MatrixXd α) (henv : env.Reliable)
    (hA : javaToEigenMatrix env A = (.ok a, env1))
    (hB : javaToEigenMatrix env1 B = (.ok b, env2)) :
    ((a.rows ≠ b.rows ∨ a.cols ≠ b.cols) →
      (Java_com_example_matrixcalculator_MatrixCalculatorBridge_addMatrices
          env A B).2.pending
        = some ⟨"java/lang/RuntimeException",
            "Matrix dimensions must match for addition (" ++ toString a.rows ++ "x" ++
              toString a.cols ++ " vs " ++ toString b.rows ++ "x" ++ toString b.cols ++ ")"⟩ ∧
      (Java_com_example_matrixcalculator_MatrixCalculatorBridge_subtractMatrices
          env A B).2.pending
        = some ⟨"java/lang/RuntimeException",
            "Matrix dimensions must match for subtraction (" ++ toString a.rows ++ "x" ++
              toString a.cols ++ " vs " ++ toString b.rows ++ "x" ++ toString b.cols ++ ")"⟩ ∧
      occursIn "addition" (dimensionsMustMatch "addition" a b) ∧
      occursIn (toString a.rows) (dimensionsMustMatch "addition" a b) ∧
      occursIn (toString a.cols) (dimensionsMustMatch "addition" a b) ∧
      occursIn (toString b.rows) (dimensionsMustMatch "addition" a b) ∧
      occursIn (toString b.cols) (dimensionsMustMatch "addition" a b) ∧
      occursIn "subtraction" (dimensionsMustMatch "subtraction" a b) ∧
      occursIn (toString a.rows) (dimensionsMustMatch "subtraction" a b) ∧
      occursIn (toString a.cols) (dimensionsMustMatch "subtraction" a b) ∧
      occursIn (toString b.rows) (dimensionsMustMatch "subtraction" a b) ∧
      occursIn (toString b.cols) (dimensionsMustMatch "subtraction" a b)) ∧
    (a.cols ≠ b.rows →
      (Java_com_example_matrixcalculator_MatrixCalculatorBridge_multiplyMatrices
          env A B).2.pending
        = some ⟨"java/lang/RuntimeException",
            "Matrix dimensions incompatible for multiplication (A.cols " ++ toString a.cols ++
              " != B.rows " ++ toString b.rows ++ ")"⟩ ∧
      occursIn "multiplication" (dimensionsIncompatible a b) ∧
      occursIn (toString a.cols) (dimensionsIncompatible a b) ∧
      occursIn (toString b.rows) (dimensionsIncompatible a b)) := by
  have hrel1 : env1.Reliable := by
    have h := decode_reliable env A henv
    rw [hA] at h; exact h
  have hrel2 : env2.Reliable := by
    have h := decode_reliable env1 B hrel1
    rw [hB] at h; exact h
  constructor
  · intro hdim
    obtain ⟨envE, hcE, _, hpE⟩ :=
      catchStdException_of_reliable α hrel2 (dimensionsMustMatch "addition" a b)
    obtain ⟨envF, hcF, _, hpF⟩ :=
      catchStdException_of_reliable α hrel2 (dimensionsMustMatch "subtraction" a b)
    refine ⟨?_, ?_, ?_⟩
    · simp only [Java_com_example_matrixcalculator_MatrixCalculatorBridge_addMatrices, hA, hB]
      rw [if_pos hdim, hcE]
      exact hpE
    · simp only [Java_com_example_matrixcalculator_MatrixCalculatorBridge_subtractMatrices, hA, hB]
      rw [if_pos hdim, hcF]
      exact hpF
    · unfold dimensionsMustMatch
      refine ⟨?_, ?_, ?_, ?_, ?_, ?_, ?_, ?_, ?_, ?_⟩ <;>
        repeat (first
          | exact occursIn_self _
          | exact occursIn_append_right _ (occursIn_self _)
          | apply occursIn_append_left)
  · intro hdim
    obtain ⟨envE, hcE, _, hpE⟩ :=
      catchStdException_of_reliable α hrel2 (dimensionsIncompatible a b)
    refine ⟨?_, ?_⟩
    · simp only [Java_com_example_matrixcalculator_MatrixCalculatorBridge_multiplyMatrices, hA, hB]
      rw [if_pos hdim, hcE]
      exact hpE
    · unfold dimensionsIncompatible
      refine ⟨?_, ?_, ?_⟩
      · repeat apply occursIn_append_left
        exact occursIn_append_left _
          (occursIn_append_right "Matrix dimensions incompatible for "
            (occursIn_self "multiplication"))
      · repeat (first
          | exact occursIn_self _
          | exact occursIn_append_right _ (occursIn_self _)
          | apply occursIn_append_left)
      · repeat (first
          | exact occursIn_self _
          | exact occursIn_append_right _ (occursIn_self _)
          | apply occursIn_append_left)

/-- C18 amended, at a 1 by 2 and a 1 by 3 operand, which are incompatible for all three
operations; the concrete evaluations show the three messages. -/
theorem dimension_mismatch_message_witness :
    (JNIEnv.fresh.Reliable ∧
      javaToEigenMatrix JNIEnv.fresh (present ([[1, 2]] : List (List Int)))
        = (.ok ⟨1, 2, [1, 2]⟩, JNIEnv.fresh) ∧
      javaToEigenMatrix JNIEnv.fresh (present ([[1, 2, 3]] : List (List Int)))
        = (.ok ⟨1, 3, [1, 2, 3]⟩, JNIEnv.fresh)) ∧
    ((((⟨1, 2, [1, 2]⟩ : MatrixXd Int).rows ≠ (⟨1, 3, [1, 2, 3]⟩ : MatrixXd Int).rows ∨ (⟨1, 2, [1, 2]⟩ : MatrixXd Int).cols ≠ (⟨1, 3, [1, 2, 3]⟩ : MatrixXd Int).cols) →
      (Java_com_example_matrixcalculator_MatrixCalculatorBridge_addMatrices
          JNIEnv.fresh (present ([[1, 2]] : List (List Int))) (present ([[1, 2, 3]] : List (List Int)))).2.pending
        = some ⟨"java/lang/RuntimeException",
            "Matrix dimensions must match for addition (" ++ toString (⟨1, 2, [1, 2]⟩ : MatrixXd Int).rows ++ "x" ++
              toString (⟨1, 2, [1, 2]⟩ : MatrixXd Int).cols ++ " vs " ++ toString (⟨1, 3, [1, 2, 3]⟩ : MatrixXd Int).rows ++ "x" ++ toString (⟨1, 3, [1, 2, 3]⟩ : MatrixXd Int).cols ++ ")"⟩ ∧
      (Java_com_example_matrixcalculator_MatrixCalculatorBridge_subtractMatrices
          JNIEnv.fresh (present ([[1, 2]] : List (List Int))) (present ([[1, 2, 3]] : List (List Int)))).2.pending
        = some ⟨"java/lang/RuntimeException",
            "Matrix dimensions must match for subtraction (" ++ toString (⟨1, 2, [1, 2]⟩ : MatrixXd Int).rows ++ "x" ++
              toString (⟨1, 2, [1, 2]⟩ : MatrixXd Int).cols ++ " vs " ++ toString (⟨1, 3, [1, 2, 3]⟩ : MatrixXd Int).rows ++ "x" ++ toString (⟨1, 3, [1, 2, 3]⟩ : MatrixXd Int).cols ++ ")"⟩ ∧
      occursIn "addition" (dimensionsMustMatch "addition" (⟨1, 2, [1, 2]⟩ : MatrixXd Int) (⟨1, 3, [1, 2, 3]⟩ : MatrixXd Int)) ∧
      occursIn (toString (⟨1, 2, [1, 2]⟩ : MatrixXd Int).rows) (dimensionsMustMatch "addition" (⟨1, 2, [1, 2]⟩ : MatrixXd Int) (⟨1, 3, [1, 2, 3]⟩ : MatrixXd Int)) ∧
      occursIn (toString (⟨1, 2, [1, 2]⟩ : MatrixXd Int).cols) (dimensionsMustMatch "addition" (⟨1, 2, [1, 2]⟩ : MatrixXd Int) (⟨1, 3, [1, 2, 3]⟩ : MatrixXd Int)) ∧
      occursIn (toString (⟨1, 3, [1, 2, 3]⟩ : MatrixXd Int).rows) (dimensionsMustMatch "addition" (⟨1, 2, [1, 2]⟩ : MatrixXd Int) (⟨1, 3, [1, 2, 3]⟩ : MatrixXd Int)) ∧
      occursIn (toString (⟨1, 3, [1, 2, 3]⟩ : MatrixXd Int).cols) (dimensionsMustMatch "addition" (⟨1, 2, [1, 2]⟩ : MatrixXd Int) (⟨1, 3, [1, 2, 3]⟩ : MatrixXd Int)) ∧
      occursIn "subtraction" (dimensionsMustMatch "subtraction" (⟨1, 2, [1, 2]⟩ : MatrixXd Int) (⟨1, 3, [1, 2, 3]⟩ : MatrixXd Int)) ∧
      occursIn (toString (⟨1, 2, [1, 2]⟩ : MatrixXd Int).rows) (dimensionsMustMatch "subtraction" (⟨1, 2, [1, 2]⟩ : MatrixXd Int) (⟨1, 3, [1, 2, 3]⟩ : MatrixXd Int)) ∧
      occursIn (toString (⟨1, 2, [1, 2]⟩ : MatrixXd Int).cols) (dimensionsMustMatch "subtraction" (⟨1, 2, [1, 2]⟩ : MatrixXd Int) (⟨1, 3, [1, 2, 3]⟩ : MatrixXd Int)) ∧
      occursIn (toString (⟨1, 3, [1, 2, 3]⟩ : MatrixXd Int).rows) (dimensionsMustMatch "subtraction" (⟨1, 2, [1, 2]⟩ : MatrixXd Int) (⟨1, 3, [1, 2, 3]⟩ : MatrixXd Int)) ∧
      occursIn (toString (⟨1, 3, [1, 2, 3]⟩ : MatrixXd Int).cols) (dimensionsMustMatch "subtraction" (⟨1, 2, [1, 2]⟩ : MatrixXd Int) (⟨1, 3, [1, 2, 3]⟩ : MatrixXd Int))) ∧
    ((⟨1, 2, [1, 2]⟩ : MatrixXd Int).cols ≠ (⟨1, 3, [1, 2, 3]⟩ : MatrixXd Int).rows →
      (Java_com_example_matrixcalculator_MatrixCalculatorBridge_multiplyMatrices
          JNIEnv.fresh (present ([[1, 2]] : List (List Int))) (present ([[1, 2, 3]] : List (List Int)))).2.pending
        = some ⟨"java/lang/RuntimeException",
            "Matrix dimensions incompatible for multiplication (A.cols " ++ toString (⟨1, 2, [1, 2]⟩ : MatrixXd Int).cols ++
              " != B.rows " ++ toString (⟨1, 3, [1, 2, 3]⟩ : MatrixXd Int).rows ++ ")"⟩ ∧
      occursIn "multiplication" (dimensionsIncompatible (⟨1, 2, [1, 2]⟩ : MatrixXd Int) (⟨1, 3, [1, 2, 3]⟩ : MatrixXd Int)) ∧
      occursIn (toString (⟨1, 2, [1, 2]⟩ : MatrixXd Int).cols) (dimensionsIncompatible (⟨1, 2, [1, 2]⟩ : MatrixXd Int) (⟨1, 3, [1, 2, 3]⟩ : MatrixXd Int)) ∧
      occursIn (toString (⟨1, 3, [1, 2, 3]⟩ : MatrixXd Int).rows) (dimensionsIncompatible (⟨1, 2, [1, 2]⟩ : MatrixXd Int) (⟨1, 3, [1, 2, 3]⟩ : MatrixXd Int)))) ∧
    (Java_com_example_matrixcalculator_MatrixCalculatorBridge_addMatrices JNIEnv.fresh
        (present ([[1, 2]] : List (List Int))) (present ([[1, 2, 3]] : List (List Int)))).2.pending
      = some ⟨"java/lang/RuntimeException",
          "Matrix dimensions must match for addition (1x2 vs 1x3)"⟩ ∧
    (Java_com_example_matrixcalculator_MatrixCalculatorBridge_subtractMatrices JNIEnv.fresh
        (present ([[1, 2]] : List (List Int))) (present ([[1, 2, 3]] : List (List Int)))).2.pending
      = some ⟨"java/lang/RuntimeException",
          "Matrix dimensions must match for subtraction (1x2 vs 1x3)"⟩ ∧
    (Java_com_example_matrixcalculator_MatrixCalculatorBridge_multiplyMatrices JNIEnv.fresh
        (present ([[1, 2]] : List (List Int))) (present ([[1, 2, 3]] : List (List Int)))).2.pending
      = some ⟨"java/lang/RuntimeException",
          "Matrix dimensions incompatible for multiplication (A.cols 2 != B.rows 1)"⟩ :=
  ⟨⟨by decide, rfl, rfl⟩,
    dimension_mismatch_message JNIEnv.fresh JNIEnv.fresh JNIEnv.fresh
      (present ([[1, 2]] : List (List Int))) (present ([[1, 2, 3]] : List (List Int)))
      ⟨1, 2, [1, 2]⟩ ⟨1, 3, [1, 2, 3]⟩ (by decide) rfl rfl,
    by decide, by decide, by decide⟩

/-- C19. Decoding never yields zero rows with a positive number of columns: whatever the
external matrix and the environment, a decoded matrix with `rows = 0` has `cols = 0`.
Consequently, let `A` and `B` decode, one after the other and with no failing acquisition, to
`a` and `b`, and let `multiplyMatrices(A, B)` return a result `res` with no exception pending
while the inner dimension `a.cols` is 0. Then `B` is the external matrix without rows, `b` is
0 by 0, and `res` consists of `a.rows` rows that are all present and empty: no row of zeros of
positive length is produced. -/
theorem multiply_inner_zero_gives_empty_rows [Zero α] [Add α] [Mul α]
    (env env1 env2 env3 : JNIEnv) (A B res : jobjectArray α) (a b : MatrixXd α)
    (henv : env.Reliable)
    (hA : javaToEigenMatrix env A = (.ok a, env1))
    (hB : javaToEigenMatrix env1 B = (.ok b, env2))
    (hmul : Java_com_example_matrixcalculator_MatrixCalculatorBridge_multiplyMatrices env A B
      = (some res, env3))
    (hp3 : env3.pending = none) (hac : a.cols = 0) :
    (∀ (X : jobjectArray α) (envX envY : JNIEnv) (m : MatrixXd α),
      javaToEigenMatrix envX X = (.ok m, envY) → m.rows = 0 → m.cols = 0) ∧
    B = [] ∧ b.rows = 0 ∧ b.cols = 0 ∧ res = List.replicate a.rows (some []) := by
  have hrel1 : env1.Reliable := by
    have h := decode_reliable env A henv
    rw [hA] at h; exact h
  have hrel2 : env2.Reliable := by
    have h := decode_reliable env1 B hrel1
    rw [hB] at h; exact h
  obtain ⟨envP, heP, _, hpP⟩ := encode_ok env2 (a.mul b) hrel2
  obtain ⟨envE, hcE, _, _⟩ :=
    catchStdException_of_reliable α hrel2 (dimensionsIncompatible a b)
  simp only [Java_com_example_matrixcalculator_MatrixCalculatorBridge_multiplyMatrices, hA, hB] at hmul
  by_cases hdim : a.cols ≠ b.rows
  · rw [if_pos hdim, hcE] at hmul
    simp at hmul
  · rw [if_neg hdim, heP] at hmul
    simp only [Prod.mk.injEq, Option.some.injEq] at hmul
    obtain ⟨hres, henv3⟩ := hmul
    have hbr : b.rows = 0 := by
      have h := not_not.mp hdim
      rw [← h, hac]
    have hbc : b.cols = 0 := decode_zero_rows env1 env2 B b hB hbr
    have hp2 : env2.pending = none := by rw [← hpP, henv3, hp3]
    refine ⟨fun X envX envY m h h0 => decode_zero_rows envX envY X m h h0,
      decode_zero_rows_input env1 env2 B b hrel1 hB hp2 hbr, hbr, hbc, ?_⟩
    rw [← hres, toLists_of_cols_zero (a.mul b) hbc]
    simp only [present, List.map_replicate]
    rfl

/-- C19, at `A` of two empty rows and `B` without rows. -/
theorem multiply_inner_zero_gives_empty_rows_witness :
    (JNIEnv.fresh.Reliable ∧
      javaToEigenMatrix JNIEnv.fresh ([some [], some []] : jobjectArray Int)
        = (.ok ⟨2, 0, []⟩, JNIEnv.fresh) ∧
      javaToEigenMatrix JNIEnv.fresh ([] : jobjectArray Int)
        = (.ok ⟨0, 0, []⟩, JNIEnv.fresh) ∧
      Java_com_example_matrixcalculator_MatrixCalculatorBridge_multiplyMatrices JNIEnv.fresh
          ([some [], some []] : jobjectArray Int) []
        = (some [some [], some []], JNIEnv.fresh) ∧
      JNIEnv.fresh.pending = none ∧ (⟨2, 0, []⟩ : MatrixXd Int).cols = 0) ∧
    ((∀ (X : jobjectArray Int) (envX envY : JNIEnv) (m : MatrixXd Int),
        javaToEigenMatrix envX X = (.ok m, envY) → m.rows = 0 → m.cols = 0) ∧
      ([] : jobjectArray Int) = [] ∧ (⟨0, 0, []⟩ : MatrixXd Int).rows = 0 ∧
      (⟨0, 0, []⟩ : MatrixXd Int).cols = 0 ∧
      ([some [], some []] : jobjectArray Int)
        = List.replicate (⟨2, 0, []⟩ : MatrixXd Int).rows (some [])) :=
  ⟨⟨by decide, rfl, rfl, by decide, rfl, rfl⟩,
    multiply_inner_zero_gives_empty_rows JNIEnv.fresh JNIEnv.fresh JNIEnv.fresh JNIEnv.fresh
      [some [], some []] [] [some [], some []] ⟨2, 0, []⟩ ⟨0, 0, []⟩ (by decide) rfl rfl
      (by decide) rfl rfl⟩

end MatrixCalculator
